import Mathlib

/-!
Verification of the weekly-authorization / accounting backend (`src/app.py`).

The program is a Flask + SQLAlchemy application.  We shallowly embed the
relevant parts:

* `datetime` values are modelled by `DateTime`: a day index (days elapsed
  since an arbitrary fixed Monday, so `day % 7` is exactly Python's
  `datetime.weekday()`, Monday = 0 … Sunday = 6) together with the time of
  day in microseconds (`usec`, valid values are `< usecPerDay`).
* SQL `Numeric` / Python `Decimal` money values are modelled by `ℚ`.
* The database is modelled by `DB`: one list per table in insertion order
  (`query.first?` is `List.find?`, mutation of a fetched row is
  `updateFirst`), together with the autoincrement counters of each table.
* Each HTTP handler becomes a pure function `DB → input → DB × Except err out`;
  the error branches of the handlers return before any mutation in the
  source, hence they return the input `DB` unchanged.
-/

namespace OperationalCar

/-- Microseconds in one day. -/
def usecPerDay : ℕ := 86400000000

/-- 23:59:59.000000 expressed in microseconds
(`replace(hour=23, minute=59, second=59, microsecond=0)` in `get_friday_end`). -/
def endOfDayUsec : ℕ := 86399000000

/-- 09:00:00.000000 expressed in microseconds
(`replace(hour=9, minute=0, second=0, microsecond=0)` in `end_authorization`). -/
def nineAmUsec : ℕ := 32400000000

/-- A naive `datetime.datetime`: `day` counts days from a fixed Monday,
`usec` is the time of day in microseconds (valid when `< usecPerDay`).
`day % 7` coincides with Python's `weekday()` (Monday = 0 … Sunday = 6). -/
structure DateTime where
  day : ℕ
  usec : ℕ
deriving DecidableEq

/-- Total microseconds since the epoch, used to compare instants. -/
def DateTime.toUsec (dt : DateTime) : ℕ := dt.day * usecPerDay + dt.usec

/-- `get_friday_end(base_dt)` from `src/app.py`: the end of day
(23:59:59.000000) of the first Friday on or after `base_dt`'s calendar day.
`weekday <= 4` adds `4 - weekday` days, otherwise `7 - (weekday - 4)` days. -/
def get_friday_end (base_dt : DateTime) : DateTime :=
  let weekday := base_dt.day % 7
  let days_to_friday := if weekday ≤ 4 then 4 - weekday else 7 - (weekday - 4)
  { day := base_dt.day + days_to_friday, usec := endOfDayUsec }

/-- C3 counterexample input: a Friday at 23:59:59.000001. -/
def fridayLateInstant : DateTime := { day := 4, usec := 86399000001 }

/-! ## Data model (the SQLAlchemy models of `src/app.py`) -/

/-- Row of table `cars`.  `status` is one of "متاحة" (available), "مؤجرة"
(rented), "تحت الصيانة" (under maintenance); every code path that creates or
updates a car writes a string, so the column is modelled as `String`. -/
structure Car where
  id : ℕ
  plate : String
  model : Option String
  car_type : Option String
  status : String
  daily_rent : Option ℚ
deriving DecidableEq

/-- Row of table `drivers`. -/
structure Driver where
  id : ℕ
  name : String
  phone : Option String
  license_no : Option String
deriving DecidableEq

/-- Row of table `authorizations`.  `issue_date` has a column default of
`datetime.utcnow` and is written by every creating code path, so it is
modelled as non-optional. -/
structure Authorization where
  id : ℕ
  issue_date : DateTime
  driver_name : String
  driver_license_no : Option String
  driver_id : Option ℕ
  car_number : String
  car_model : Option String
  car_type : Option String
  start_date : Option DateTime
  daily_rent : Option ℚ
  details : Option String
  status : String
  end_date : Option DateTime
  close_date : Option DateTime
  closed_amount : Option ℚ
  closing_note : Option String
deriving DecidableEq

/-- Row of table `accounts`. -/
structure Account where
  id : ℕ
  name : String
  type : Option String
  parent_id : Option ℕ
  is_group : Bool
  related_driver_id : Option ℕ
  related_car_id : Option ℕ
deriving DecidableEq

/-- Row of table `cash_receipts`.  `date` and `description` are written by
the only creating code path (`receipts_api`), hence non-optional. -/
structure CashReceipt where
  id : ℕ
  date : DateTime
  driver_id : Option ℕ
  driver_name : Option String
  amount : ℚ
  description : String
  ref_authorization_id : Option ℕ
deriving DecidableEq

/-- Row of table `journal_entries`. -/
structure JournalEntry where
  id : ℕ
  date : DateTime
  description : String
  ref_authorization_id : Option ℕ
  ref_receipt_id : Option ℕ
deriving DecidableEq

/-- Row of table `journal_lines`. -/
structure JournalLine where
  id : ℕ
  journal_entry_id : ℕ
  account_id : ℕ
  debit : ℚ
  credit : ℚ
deriving DecidableEq

/-- The relational store: one list per table, rows in insertion order,
plus each table's autoincrement counter (the id the next insert gets). -/
structure DB where
  cars : List Car
  drivers : List Driver
  auths : List Authorization
  accounts : List Account
  receipts : List CashReceipt
  entries : List JournalEntry
  lines : List JournalLine
  nextCarId : ℕ
  nextDriverId : ℕ
  nextAuthId : ℕ
  nextAccountId : ℕ
  nextReceiptId : ℕ
  nextEntryId : ℕ
  nextLineId : ℕ
deriving DecidableEq

/-- `query.filter_by(...).first()` followed by mutating the fetched row and
committing: replace the first row satisfying `sel` by `f` of it; if no row
matches, the list is unchanged. -/
def updateFirst (sel : α → Bool) (f : α → α) : List α → List α
  | [] => []
  | x :: xs => if sel x then f x :: xs else x :: updateFirst sel f xs

/-- A raw decimal field of a JSON request body, as seen through
`safe_decimal` from `src/app.py`: the field can be absent/blank (`None`,
`""`, `" "`), present but unparseable, or a parsed `Decimal` value. -/
inductive DecIn
  | absent
  | invalid
  | val (q : ℚ)
deriving DecidableEq

/-- A raw date field of a JSON request body, as seen through
`datetime.fromisoformat`: absent/blank, unparseable, or a parsed value. -/
inductive DateIn
  | absent
  | invalid
  | val (dt : DateTime)
deriving DecidableEq

/-- `safe_decimal(val, default)` from `src/app.py`: blank input or a parse
failure yields `default`, otherwise the parsed decimal. -/
def safe_decimal (v : DecIn) (default : Option ℚ) : Option ℚ :=
  match v with
  | .val q => some q
  | _ => default

/-- True of an Authorization row that is open for car plate `plate`
(the `filter_by(car_number=…)` + `close_date IS NULL` query of
`add_authorization`). -/
def isOpenFor (plate : String) (a : Authorization) : Bool :=
  a.car_number == plate && a.close_date.isNone

/-- `effective_start`: `auth.start_date or auth.issue_date`. -/
def baseStart (a : Authorization) : DateTime := a.start_date.getD a.issue_date

/-- The planned end date used by the `end` operation after its defensive
backfill: the stored `end_date` if present, otherwise
`get_friday_end(start_date or issue_date)`. -/
def endDateEff (a : Authorization) : DateTime :=
  match a.end_date with
  | some e => e
  | none => get_friday_end (baseStart a)

/-- `days = (end_d - start_d).days + 1; if days < 0: days = 0`
(only the calendar days of the two instants are compared). -/
def rentalDaysOf (s e : DateTime) : ℕ := ((e.day : ℤ) - (s.day : ℤ) + 1).toNat

/-- The (rental_days, auto_amount) pair computed while ending an
authorization, `none` when `daily_rent` is null.  The source computes the
product via Python `float` (`float(auth.daily_rent) * days`); the model
uses the exact value of the product (see the C6 analysis). -/
def autoAmountOf (a : Authorization) (ed : DateTime) : Option (ℕ × ℚ) :=
  match a.daily_rent with
  | none => none
  | some d => some (rentalDaysOf (baseStart a) ed, d * (rentalDaysOf (baseStart a) ed : ℚ))

/-- Python's banker's rounding (`round`) to an integer. -/
def round_half_even (q : ℚ) : ℤ :=
  if q - ⌊q⌋ < 1/2 then ⌊q⌋
  else if (1 : ℚ)/2 < q - ⌊q⌋ then ⌊q⌋ + 1
  else if ⌊q⌋ % 2 = 0 then ⌊q⌋ else ⌊q⌋ + 1

/-- Python's `round(x, 2)`. -/
def pyRound2 (q : ℚ) : ℚ := (round_half_even (q * 100) : ℚ) / 100

/-- The accepted `closed_amount` override of the `end` operation: the input
must be present, parse as a decimal, and be `> 0`; otherwise it is ignored
(`if tmp is not None and tmp > 0`). -/
def overrideAmount (v : DecIn) : Option ℚ :=
  match safe_decimal v none with
  | some t => if 0 < t then some t else none
  | none => none

/-- `final_amount` at the end of the closing computation: the accepted
override if any, otherwise the auto-computed amount (or `none`). -/
def finalAmountOf (auth : Authorization) (ov : DecIn) : Option ℚ :=
  match overrideAmount ov with
  | some q => some q
  | none => (autoAmountOf auth (endDateEff auth)).map (fun p => p.2)

/-- The `closed_amount` stored on the closed row: the accepted override
unrounded, else `Decimal(str(round(auto_amount, 2)))`, else null. -/
def closedAmountOf (auth : Authorization) (ov : DecIn) : Option ℚ :=
  match overrideAmount ov with
  | some q => some q
  | none => (autoAmountOf auth (endDateEff auth)).map (fun p => pyRound2 p.2)

/-- The mutated (closed) authorization row written by `end_authorization`:
`close_date = now`, `status = "منتهية"`, backfilled `end_date`,
`closed_amount` and `closing_note` set. -/
def closedOf (auth : Authorization) (ov : DecIn) (note : Option String) (now : DateTime) :
    Authorization :=
  { auth with close_date := some now, status := "منتهية", end_date := some (endDateEff auth),
              closed_amount := closedAmountOf auth ov,
              closing_note := note }

/-- `new_issue` of the renewal: the closed authorization's end date plus
one day, with the time of day replaced by 09:00:00. -/
def nextIssueOf (ed : DateTime) : DateTime := { day := ed.day + 1, usec := nineAmUsec }

/-- The renewal row created by `end_authorization` when `renew` is true:
driver/car/rent/details copied from the closed authorization,
`start_date = issue_date = new_issue`, `end_date = get_friday_end(new_issue)`,
open (`close_date = null`), status "مؤجرة". -/
def renewedOf (auth : Authorization) (newId : ℕ) : Authorization :=
  let new_issue := nextIssueOf (endDateEff auth)
  { id := newId, issue_date := new_issue,
    driver_name := auth.driver_name, driver_license_no := auth.driver_license_no,
    driver_id := auth.driver_id, car_number := auth.car_number,
    car_model := auth.car_model, car_type := auth.car_type,
    start_date := some new_issue, daily_rent := auth.daily_rent,
    details := auth.details, status := "مؤجرة",
    end_date := some (get_friday_end new_issue), close_date := none,
    closed_amount := none, closing_note := none }

/-- A value is exactly representable in binary floating point only if it is
dyadic (an integer divided by a power of two); IEEE-754 doubles are a finite
subset of these. -/
def Dyadic (q : ℚ) : Prop := ∃ (m : ℤ) (k : ℕ), q = (m : ℚ) / 2 ^ k

/-! ## Accounting helpers (`ensure_*` and `create_journal_*`) -/

/-- Name of the cash account created by `ensure_core_accounts` ("الصندوق"). -/
def cashAccountName : String := "الصندوق"

/-- Name of the rental-revenue account ("إيراد إيجار سيارات"). -/
def revenueAccountName : String := "إيراد إيجار سيارات"

/-- Name of the driver root group account ("حساب السائقين"). -/
def driverRootName : String := "حساب السائقين"

/-- `ensure_driver_root_account()` from `src/app.py`: return the group
account named `driverRootName`, creating it (type asset, group, no parent)
if absent. -/
def ensure_driver_root_account (db : DB) : DB × Account :=
  match db.accounts.find? (fun a => a.name == driverRootName && a.is_group) with
  | some root => (db, root)
  | none =>
    let root : Account :=
      { id := db.nextAccountId, name := driverRootName, type := some "asset",
        parent_id := none, is_group := true,
        related_driver_id := none, related_car_id := none }
    ({ db with accounts := db.accounts ++ [root], nextAccountId := db.nextAccountId + 1 }, root)

/-- `ensure_driver_sub_account(driver)` from `src/app.py` for a non-`None`
driver: return the account with `related_driver_id = driver.id`, creating a
non-group asset account under the driver root (named from the driver's
name, or its id when the name is empty) if absent. -/
def ensure_driver_sub_account (db : DB) (driver : Driver) : DB × Account :=
  match db.accounts.find? (fun a => a.related_driver_id == some driver.id) with
  | some acc => (db, acc)
  | none =>
    let r := ensure_driver_root_account db
    let acc : Account :=
      { id := r.1.nextAccountId,
        name := if driver.name ≠ "" then "سائق: " ++ driver.name
                else "سائق رقم " ++ toString driver.id,
        type := some "asset", parent_id := some r.2.id, is_group := false,
        related_driver_id := some driver.id, related_car_id := none }
    ({ r.1 with accounts := r.1.accounts ++ [acc], nextAccountId := r.1.nextAccountId + 1 }, acc)

/-- The driver-account-resolution block shared verbatim by both journal
creators (`driver_account = None; if …driver_id: driver_account =
ensure_driver_sub_account(…driver); if not driver_account: driver_account =
ensure_driver_root_account()`): resolve the driver row by id, use (or
create) its sub-account, and fall back to the root group account. -/
def resolve_driver_account (db : DB) (driver_id : Option ℕ) : DB × Account :=
  let r1 : DB × Option Account :=
    match driver_id with
    | some did =>
      match db.drivers.find? (fun d => d.id == did) with
      | some drv => let r := ensure_driver_sub_account db drv; (r.1, some r.2)
      | none => (db, none)
    | none => (db, none)
  match r1.2 with
  | some acc => (r1.1, acc)
  | none => ensure_driver_root_account r1.1

/-- `create_journal_for_closed_authorization(auth, total_amount)` from
`src/app.py`: post the two-line closure entry (debit the driver's account,
credit the revenue account).  Returns the entry id, or `none` without
posting anything when the amount is not positive or the revenue account is
missing.  `now` is the injected `datetime.utcnow()`. -/
def create_journal_for_closed_authorization (db : DB) (auth : Authorization) (total_amount : ℚ)
    (now : DateTime) : DB × Option ℕ :=
  if total_amount ≤ 0 then (db, none)
  else
    match db.accounts.find? (fun a => a.name == revenueAccountName) with
    | none => (db, none)
    | some revenue_account =>
      let r2 := resolve_driver_account db auth.driver_id
      let db2 := r2.1
      let je : JournalEntry :=
        { id := db2.nextEntryId, date := now,
          description := "قيد إقفال تفويض رقم " ++ toString auth.id,
          ref_authorization_id := some auth.id, ref_receipt_id := none }
      let line1 : JournalLine :=
        { id := db2.nextLineId, journal_entry_id := je.id,
          account_id := r2.2.id, debit := total_amount, credit := 0 }
      let line2 : JournalLine :=
        { id := db2.nextLineId + 1, journal_entry_id := je.id,
          account_id := revenue_account.id, debit := 0, credit := total_amount }
      ({ db2 with entries := db2.entries ++ [je], lines := db2.lines ++ [line1, line2],
                  nextEntryId := db2.nextEntryId + 1, nextLineId := db2.nextLineId + 2 },
       some je.id)

/-- `create_journal_for_cash_receipt(receipt)` from `src/app.py`: post the
two-line receipt entry (debit cash, credit the driver's account).  Returns
the entry id, or `none` without posting anything when the amount is not
positive or the cash account is missing. -/
def create_journal_for_cash_receipt (db : DB) (receipt : CashReceipt) : DB × Option ℕ :=
  if receipt.amount ≤ 0 then (db, none)
  else
    match db.accounts.find? (fun a => a.name == cashAccountName) with
    | none => (db, none)
    | some cash_account =>
      let r2 := resolve_driver_account db receipt.driver_id
      let db2 := r2.1
      let je : JournalEntry :=
        { id := db2.nextEntryId, date := receipt.date,
          description := receipt.description,
          ref_authorization_id := receipt.ref_authorization_id,
          ref_receipt_id := some receipt.id }
      let line1 : JournalLine :=
        { id := db2.nextLineId, journal_entry_id := je.id,
          account_id := cash_account.id, debit := receipt.amount, credit := 0 }
      let line2 : JournalLine :=
        { id := db2.nextLineId + 1, journal_entry_id := je.id,
          account_id := r2.2.id, debit := 0, credit := receipt.amount }
      ({ db2 with entries := db2.entries ++ [je], lines := db2.lines ++ [line1, line2],
                  nextEntryId := db2.nextEntryId + 1, nextLineId := db2.nextLineId + 2 },
       some je.id)

/-! ## Operations (the API handlers of `src/app.py`) -/

/-- JSON body of `POST /api/issue` after the source's own string
normalisation: `driver_name`/`car_number` are the strings after the
handler's `.strip()` (Lean's `String.trim` is defined by well-founded
recursion and does not evaluate definitionally, so the model takes the
stripped strings as inputs), optional overrides are `none` when absent or
empty (`data.get(…) or fallback`), `start_date` and `daily_rent` are raw
fields. -/
structure IssueInput where
  driver_name : String
  car_number : String
  car_model : Option String
  car_type : Option String
  start_date : DateIn
  daily_rent : DecIn
  details : Option String
deriving DecidableEq

inductive IssueErr
  | driverRequired
  | carRequired
  | carNotFound
  | carNotAvailable
  | openAuthExists
  | invalidDate
  | invalidRent
deriving DecidableEq

/-- `add_authorization` (`POST /api/issue`) from `src/app.py`.  `now` is the
injected `datetime.utcnow()`.  Every error branch of the source returns
before touching the session, so it returns the store unchanged. -/
def add_authorization (db : DB) (inp : IssueInput) (now : DateTime) :
    DB × Except IssueErr Authorization :=
  let driver_name := inp.driver_name
  let car_plate := inp.car_number
  if driver_name = "" then (db, .error .driverRequired)
  else if car_plate = "" then (db, .error .carRequired)
  else
    match db.cars.find? (fun c => c.plate == car_plate) with
    | none => (db, .error .carNotFound)
    | some car =>
      -- `(car.status or "").strip() != "متاحة"`: every writer stores the
      -- status constants without surrounding whitespace, so the strip is
      -- the identity on reachable rows and is dropped from the model.
      if car.status ≠ "متاحة" then (db, .error .carNotAvailable)
      else
        match db.auths.find? (isOpenFor car_plate) with
        | some _ => (db, .error .openAuthExists)
        | none =>
          match inp.start_date with
          | .invalid => (db, .error .invalidDate)
          | sdIn =>
            match inp.daily_rent with
            | .invalid => (db, .error .invalidRent)
            | drIn =>
              let driver_obj := db.drivers.find? (fun d => d.name == driver_name)
              let issue_date := now
              let start_date := match sdIn with | .val sdt => sdt | _ => issue_date
              let planned_end := get_friday_end start_date
              let new_auth : Authorization :=
                { id := db.nextAuthId,
                  issue_date := issue_date,
                  driver_name := driver_name,
                  driver_license_no := driver_obj.bind (fun d => d.license_no),
                  driver_id := driver_obj.map (fun d => d.id),
                  car_number := car_plate,
                  car_model := match inp.car_model with | some m => some m | none => car.model,
                  car_type := match inp.car_type with | some t => some t | none => car.car_type,
                  start_date := some start_date,
                  daily_rent := match drIn with | .val q => some q | _ => car.daily_rent,
                  details := inp.details,
                  status := "مؤجرة",
                  end_date := some planned_end,
                  close_date := none,
                  closed_amount := none,
                  closing_note := none }
              ({ db with
                  auths := db.auths ++ [new_auth],
                  nextAuthId := db.nextAuthId + 1,
                  cars := updateFirst (fun c => c.plate == car_plate)
                            (fun c => { c with status := "مؤجرة" }) db.cars },
               .ok new_auth)

/-- JSON body of `PATCH /api/authorizations/<id>/end`.  `renew` and
`with_journal` are the booleans after the source's lenient parsing (their
defaults are `true` and `false` respectively); `closing_note` is the
stripped note or `none`. -/
structure EndInput where
  renew : Bool
  with_journal : Bool
  closing_note : Option String
  closed_amount : DecIn
deriving DecidableEq

inductive EndErr
  | notFound
  | alreadyClosed
deriving DecidableEq

/-- The JSON response of a successful `end` call (the fields the claims
are about). -/
structure EndResult where
  closed_authorization : Authorization
  new_authorization : Option Authorization
  rental_days : Option ℕ
  total_amount : Option ℚ
  journal_entry_id : Option ℕ
deriving DecidableEq

/-- `end_authorization` (`PATCH /api/authorizations/<id>/end`) from
`src/app.py`: close the authorization (set `close_date`/`status`, backfill
`end_date` if missing, compute `rental_days`/`auto_amount`, fix
`closed_amount`), optionally post the closure journal, then either renew
into a fresh open authorization (car stays "مؤجرة") or release the car
("متاحة").  The `if car:` guard of the source is subsumed by `updateFirst`
being the identity when no car row matches the plate. -/
def end_authorization (db : DB) (auth_id : ℕ) (inp : EndInput) (now : DateTime) :
    DB × Except EndErr EndResult :=
  match db.auths.find? (fun a => a.id == auth_id) with
  | none => (db, .error .notFound)
  | some auth =>
    if auth.close_date.isSome then (db, .error .alreadyClosed)
    else
      let auth' := closedOf auth inp.closed_amount inp.closing_note now
      let final_amount := finalAmountOf auth inp.closed_amount
      let db1 := { db with auths := updateFirst (fun a => a.id == auth_id) (fun _ => auth') db.auths }
      let jr : DB × Option ℕ :=
        if inp.with_journal then
          match final_amount with
          | some f =>
            if 0 < f then create_journal_for_closed_authorization db1 auth' f now
            else (db1, none)
          | none => (db1, none)
        else (db1, none)
      let db2 := jr.1
      if inp.renew then
        let new_auth := renewedOf auth db2.nextAuthId
        ({ db2 with auths := db2.auths ++ [new_auth], nextAuthId := db2.nextAuthId + 1,
                    cars := updateFirst (fun c => c.plate == auth.car_number)
                              (fun c => { c with status := "مؤجرة" }) db2.cars },
         .ok { closed_authorization := auth', new_authorization := some new_auth,
               rental_days := (autoAmountOf auth (endDateEff auth)).map (fun p => p.1),
               total_amount := final_amount,
               journal_entry_id := jr.2 })
      else
        ({ db2 with cars := updateFirst (fun c => c.plate == auth.car_number)
                              (fun c => { c with status := "متاحة" }) db2.cars },
         .ok { closed_authorization := auth', new_authorization := none,
               rental_days := (autoAmountOf auth (endDateEff auth)).map (fun p => p.1),
               total_amount := final_amount,
               journal_entry_id := jr.2 })

/-- JSON body of `POST /api/cars`. -/
structure CarInput where
  plate : String
  model : Option String
  car_type : Option String
  daily_rent : DecIn
  status : Option String
deriving DecidableEq

inductive CarErr
  | plateRequired
deriving DecidableEq

/-- `add_car` (`POST /api/cars`) from `src/app.py`: the only validation is a
non-empty plate (`inp.plate` is the request's plate after the handler's
`.strip()`); there is no duplicate-plate check and the `plate` column has
no unique constraint (only a plain index). -/
def add_car (db : DB) (inp : CarInput) : DB × Except CarErr Car :=
  let plate := inp.plate
  if plate = "" then (db, .error .plateRequired)
  else
    let car : Car :=
      { id := db.nextCarId, plate := plate, model := inp.model, car_type := inp.car_type,
        daily_rent := safe_decimal inp.daily_rent none,
        status := match inp.status with | some s => s | none => "متاحة" }
    ({ db with cars := db.cars ++ [car], nextCarId := db.nextCarId + 1 }, .ok car)

/-- One element of the `lines` array of a manual journal entry request.
A falsy `account_id` (absent, null, 0) is `none`. -/
structure LineIn where
  account_id : Option ℕ
  debit : DecIn
  credit : DecIn
deriving DecidableEq

/-- JSON body of `POST /api/journal_entries` (`description` stripped). -/
structure ManualIn where
  description : String
  date : DateIn
  lines : List LineIn
deriving DecidableEq

inductive ManualErr
  | noLines
  | badDate
  | accountNotFound (line : ℕ)
  | groupAccount (line : ℕ)
  | negativeAmount (line : ℕ)
  | bothDebitAndCredit (line : ℕ)
  | allLinesEmpty
  | imbalance (total_debit total_credit : ℚ)
deriving DecidableEq

/-- `safe_decimal(x, default=Decimal("0")) or Decimal("0")`: the debit or
credit of a manual line, with blank or unparseable input read as 0. -/
def lineDec (v : DecIn) : ℚ := (safe_decimal v (some 0)).getD 0

/-- The validation loop of `journal_entries_api` (POST): walk the lines
(1-based index for the error messages), skip lines without an account id
and all-zero lines, reject missing accounts, group accounts, negative
amounts and lines with both sides set; collect `(account_id, debit,
credit)` of the usable lines. -/
def processLines (db : DB) : List LineIn → ℕ → Except ManualErr (List (ℕ × ℚ × ℚ))
  | [], _ => .ok []
  | ln :: rest, i =>
    match ln.account_id with
    | none => processLines db rest (i + 1)
    | some acc_id =>
      match db.accounts.find? (fun a => a.id == acc_id) with
      | none => .error (.accountNotFound i)
      | some acc =>
        if acc.is_group then .error (.groupAccount i)
        else
          let debit := lineDec ln.debit
          let credit := lineDec ln.credit
          if debit < 0 ∨ credit < 0 then .error (.negativeAmount i)
          else if debit ≠ 0 ∧ credit ≠ 0 then .error (.bothDebitAndCredit i)
          else if debit = 0 ∧ credit = 0 then processLines db rest (i + 1)
          else
            match processLines db rest (i + 1) with
            | .error e => .error e
            | .ok tl => .ok ((acc.id, debit, credit) :: tl)

/-- `total_debit` accumulated over the usable (cleaned) lines. -/
def totalDebit (cleaned : List (ℕ × ℚ × ℚ)) : ℚ := (cleaned.map (fun t => t.2.1)).sum

/-- `total_credit` accumulated over the usable (cleaned) lines. -/
def totalCredit (cleaned : List (ℕ × ℚ × ℚ)) : ℚ := (cleaned.map (fun t => t.2.2)).sum

/-- The `for (acc_id, d, c) in cleaned` insertion loop of
`journal_entries_api`: one `JournalLine` per cleaned line, ids assigned in
order. -/
def mkLines (entry_id : ℕ) (start_id : ℕ) : List (ℕ × ℚ × ℚ) → List JournalLine
  | [] => []
  | (acc_id, d, c) :: rest =>
    { id := start_id, journal_entry_id := entry_id, account_id := acc_id,
      debit := d, credit := c } :: mkLines entry_id (start_id + 1) rest

/-- `journal_entries_api` (`POST /api/journal_entries`) from `src/app.py`:
validate the manual entry (non-empty lines, parseable date, per-line
checks, at least one usable line, balance within `Decimal("0.005")`) and
persist the entry with its lines.  Returns the new entry id. -/
def journal_entries_api (db : DB) (inp : ManualIn) (now : DateTime) :
    DB × Except ManualErr ℕ :=
  if inp.lines = [] then (db, .error .noLines)
  else
    match inp.date with
    | .invalid => (db, .error .badDate)
    | dIn =>
      let je_date := match dIn with | .val d => d | _ => now
      match processLines db inp.lines 1 with
      | .error e => (db, .error e)
      | .ok cleaned =>
        if cleaned = [] then (db, .error .allLinesEmpty)
        else
          let td := totalDebit cleaned
          let tc := totalCredit cleaned
          if 1/200 < |td - tc| then (db, .error (.imbalance td tc))
          else
            let je : JournalEntry :=
              { id := db.nextEntryId, date := je_date, description := inp.description,
                ref_authorization_id := none, ref_receipt_id := none }
            ({ db with entries := db.entries ++ [je],
                       lines := db.lines ++ mkLines je.id db.nextLineId cleaned,
                       nextEntryId := db.nextEntryId + 1,
                       nextLineId := db.nextLineId + cleaned.length },
             .ok je.id)

/-- JSON body of `POST /api/receipts` (`driver_name`/`description`
stripped; a falsy `driver_id`/`authorization_id` is `none`). -/
structure ReceiptIn where
  driver_name : String
  driver_id : Option ℕ
  authorization_id : Option ℕ
  description : String
  amount : DecIn
  date : DateIn
deriving DecidableEq

inductive ReceiptErr
  | amountRequired
  | amountInvalid
  | amountNotPositive
  | badDate
deriving DecidableEq

structure ReceiptOut where
  receipt : CashReceipt
  journal_entry_id : Option ℕ
deriving DecidableEq

/-- `receipts_api` (`POST /api/receipts`) from `src/app.py`: validate the
amount (required, decimal, `> 0`) and date, resolve driver (by id first,
then by name) and authorization, insert the receipt, then call
`create_journal_for_cash_receipt` inside the same transaction. -/
def receipts_api (db : DB) (inp : ReceiptIn) (now : DateTime) :
    DB × Except ReceiptErr ReceiptOut :=
  match inp.amount with
  | .absent => (db, .error .amountRequired)
  | .invalid => (db, .error .amountInvalid)
  | .val amount_dec =>
    if amount_dec ≤ 0 then (db, .error .amountNotPositive)
    else
      match inp.date with
      | .invalid => (db, .error .badDate)
      | dIn =>
        let rc_date := match dIn with | .val d => d | _ => now
        let driver_obj : Option Driver :=
          match inp.driver_id with
          | some did => db.drivers.find? (fun d => d.id == did)
          | none =>
            if inp.driver_name ≠ "" then db.drivers.find? (fun d => d.name == inp.driver_name)
            else none
        let receipt : CashReceipt :=
          { id := db.nextReceiptId, date := rc_date,
            driver_id := driver_obj.map (fun d => d.id),
            driver_name :=
              if inp.driver_name ≠ "" then some inp.driver_name
              else driver_obj.map (fun d => d.name),
            amount := amount_dec,
            description :=
              if inp.description ≠ "" then inp.description
              else
                match inp.authorization_id.bind (fun aid => db.auths.find? (fun a => a.id == aid)) with
                | some a => "سداد عن تفويض رقم " ++ toString a.id
                | none => "سند تحصيل نقدي",
            ref_authorization_id :=
              (inp.authorization_id.bind (fun aid => db.auths.find? (fun a => a.id == aid))).map
                (fun a => a.id) }
        let db1 := { db with receipts := db.receipts ++ [receipt],
                             nextReceiptId := db.nextReceiptId + 1 }
        let jr := create_journal_for_cash_receipt db1 receipt
        (jr.1, .ok { receipt := receipt, journal_entry_id := jr.2 })

/-! ## Invariants and observations used in the claims -/

/-- Number of open authorizations recorded for a car plate. -/
def countOpen (db : DB) (plate : String) : ℕ := db.auths.countP (isOpenFor plate)

/-- C1's invariant: at most one Authorization row per plate with
`close_date IS NULL`. -/
def OpenAuthInv (db : DB) : Prop := ∀ plate, countOpen db plate ≤ 1

/-- Some open authorization exists for the plate. -/
def HasOpenAuth (db : DB) (plate : String) : Prop := ∃ a ∈ db.auths, isOpenFor plate a = true

/-- Sum of the debit amounts of a list of journal lines. -/
def sumDebit (ls : List JournalLine) : ℚ := (ls.map (fun l => l.debit)).sum

/-- Sum of the credit amounts of a list of journal lines. -/
def sumCredit (ls : List JournalLine) : ℚ := (ls.map (fun l => l.credit)).sum

/-- The lines belonging to an entry. -/
def linesOf (db : DB) (entry_id : ℕ) : List JournalLine :=
  db.lines.filter (fun l => l.journal_entry_id == entry_id)

/-- C2's per-entry balance: debits equal credits within 0.005. -/
def EntryBalanced (db : DB) (e : JournalEntry) : Prop :=
  |sumDebit (linesOf db e.id) - sumCredit (linesOf db e.id)| ≤ 1/200

/-- C2's invariant over the whole store. -/
def BalancedInv (db : DB) : Prop := ∀ e ∈ db.entries, EntryBalanced db e

/-- Well-formedness delivered by the autoincrement primary keys: every
stored entry id, and every stored line's entry reference, is below the next
entry id the sequence will hand out. -/
def LedgerFresh (db : DB) : Prop :=
  (∀ e ∈ db.entries, e.id < db.nextEntryId) ∧
  (∀ l ∈ db.lines, l.journal_entry_id < db.nextEntryId)

/-- Well-formedness delivered by the `cash_receipts` autoincrement key:
every receipt reference stored on an entry is below the next receipt id. -/
def ReceiptRefsFresh (db : DB) : Prop :=
  ∀ e ∈ db.entries, ∀ r, e.ref_receipt_id = some r → r < db.nextReceiptId

/-! ## Concrete fixtures for witnesses and counterexamples.
Calendar convention of the fixtures: day 0 is Monday 2024-12-30, so day 7
is Monday 2025-01-06, day 9 is Wednesday 2025-01-08, day 11 is Friday
2025-01-10. -/

/-- A store as fresh after `db.create_all()` with no rows at all. -/
def emptyDB : DB :=
  { cars := [], drivers := [], auths := [], accounts := [], receipts := [],
    entries := [], lines := [],
    nextCarId := 1, nextDriverId := 1, nextAuthId := 1, nextAccountId := 1,
    nextReceiptId := 1, nextEntryId := 1, nextLineId := 1 }

def carC1 : Car :=
  { id := 1, plate := "C1", model := none, car_type := none,
    status := "متاحة", daily_rent := some 100 }

def driverAli : Driver := { id := 1, name := "Ali", phone := none, license_no := none }

def cashAcc : Account :=
  { id := 1, name := cashAccountName, type := some "asset", parent_id := none,
    is_group := false, related_driver_id := none, related_car_id := none }

def revenueAcc : Account :=
  { id := 2, name := revenueAccountName, type := some "revenue", parent_id := none,
    is_group := false, related_driver_id := none, related_car_id := none }

/-- Scenario A/B authorization: issued to Ali for car C1, start Monday
2025-01-06 09:00, planned end Friday 2025-01-10 23:59:59, daily rent
100.00, open. -/
def authA : Authorization :=
  { id := 1, issue_date := ⟨7, nineAmUsec⟩, driver_name := "Ali",
    driver_license_no := none, driver_id := some 1, car_number := "C1",
    car_model := none, car_type := none, start_date := some ⟨7, nineAmUsec⟩,
    daily_rent := some 100, details := none, status := "مؤجرة",
    end_date := some ⟨11, endOfDayUsec⟩, close_date := none,
    closed_amount := none, closing_note := none }

/-- Store for the end-operation witnesses: car C1 rented to Ali under
`authA`, core accounts bootstrapped. -/
def dbScenario : DB :=
  { emptyDB with cars := [{ carC1 with status := "مؤجرة" }], drivers := [driverAli],
                 auths := [authA], accounts := [cashAcc, revenueAcc],
                 nextCarId := 2, nextDriverId := 2, nextAuthId := 2, nextAccountId := 3 }

/-- Store for the C1 witness: an open authorization for C1 exists while the
car row (inconsistently) still reads "متاحة", which drives `add_authorization`
into its dedicated open-authorization conflict branch. -/
def dbOpenConflict : DB :=
  { emptyDB with cars := [carC1], drivers := [driverAli], auths := [authA],
                 nextCarId := 2, nextDriverId := 2, nextAuthId := 2 }

/-- Issue request for car C1 by driver Ali with no overrides. -/
def issueInpW : IssueInput :=
  { driver_name := "Ali", car_number := "C1", car_model := none, car_type := none,
    start_date := .absent, daily_rent := .absent, details := none }

/-- Store with only the two core leaf accounts (for the manual-entry
witnesses). -/
def dbAccountsOnly : DB :=
  { emptyDB with accounts := [cashAcc, revenueAcc], nextAccountId := 3 }

/-- Scenario E request: debit cash 100, credit revenue 90. -/
def manualInpW : ManualIn :=
  { description := "m", date := .absent,
    lines := [ { account_id := some 1, debit := .val 100, credit := .absent },
               { account_id := some 2, debit := .absent, credit := .val 90 } ] }

/-- Balanced manual request: debit cash 100, credit revenue 100. -/
def manualInpBalanced : ManualIn :=
  { description := "m", date := .absent,
    lines := [ { account_id := some 1, debit := .val 100, credit := .absent },
               { account_id := some 2, debit := .absent, credit := .val 100 } ] }

/-- A valid receipt request of 50 from Ali. -/
def receiptInpW : ReceiptIn :=
  { driver_name := "Ali", driver_id := none, authorization_id := none,
    description := "", amount := .val 50, date := .absent }

/-- Car-creation request reusing the already registered plate C1. -/
def dupCarInp : CarInput :=
  { plate := "C1", model := none, car_type := none, daily_rent := .absent, status := none }

/-- Store already containing a car with plate C1. -/
def dbWithCarC1 : DB := { emptyDB with cars := [carC1], nextCarId := 2 }

/-- C6 fixture: authorization with daily rent 0.10 over the three days
Wednesday 2025-01-08 .. Friday 2025-01-10. -/
def authC6 : Authorization :=
  { authA with issue_date := ⟨9, nineAmUsec⟩, start_date := some ⟨9, nineAmUsec⟩,
               daily_rent := some (1/10) }

/-- C3: the claim "`get_friday_end` … is never earlier than the input" is
false: on a Friday at 23:59:59.000001 (a valid time of day) the result is
that same Friday at 23:59:59.000000, one microsecond earlier than the
input. -/
theorem get_friday_end_can_be_earlier :
    fridayLateInstant.usec < usecPerDay ∧
      (get_friday_end fridayLateInstant).toUsec < fridayLateInstant.toUsec := by
  constructor <;> decide

theorem get_friday_end_day (dt : DateTime) :
    (get_friday_end dt).day
      = dt.day + (if dt.day % 7 ≤ 4 then 4 - dt.day % 7 else 7 - (dt.day % 7 - 4)) := rfl

theorem get_friday_end_usec (dt : DateTime) :
    (get_friday_end dt).usec = endOfDayUsec := rfl

/-- C3 (amended): for every valid instant, `get_friday_end` returns a Friday
at 23:59:59.000, whose calendar day is the nearest Friday on or after the
input's calendar day (the same day if the input is a Friday); the result is
never earlier than the input whenever the input's time of day is at most
23:59:59.000, and in every case it is earlier by less than one second. -/
theorem get_friday_end_spec (dt : DateTime) (hv : dt.usec < usecPerDay) :
    (get_friday_end dt).day % 7 = 4 ∧
    (get_friday_end dt).usec = endOfDayUsec ∧
    dt.day ≤ (get_friday_end dt).day ∧
    (∀ d : ℕ, dt.day ≤ d → d % 7 = 4 → (get_friday_end dt).day ≤ d) ∧
    (dt.day % 7 = 4 → (get_friday_end dt).day = dt.day) ∧
    (dt.usec ≤ endOfDayUsec → dt.toUsec ≤ (get_friday_end dt).toUsec) ∧
    dt.toUsec < (get_friday_end dt).toUsec + 1000000 := by
  have hd := get_friday_end_day dt
  have hu := get_friday_end_usec dt
  simp only [DateTime.toUsec, usecPerDay, endOfDayUsec] at *
  refine ⟨?_, hu, ?_, ?_, ?_, ?_, ?_⟩ <;> rw [hd] at * <;> split_ifs <;> omega

/-- C3 witness: `get_friday_end_spec` applied to Wednesday 2025-01-08 00:00
(day 9 of the epoch week layout used throughout: 2024-12-30 is day 0). -/
theorem get_friday_end_spec_witness :
    (⟨9, 0⟩ : DateTime).usec < usecPerDay ∧
      ((get_friday_end ⟨9, 0⟩).day % 7 = 4 ∧
      (get_friday_end ⟨9, 0⟩).usec = endOfDayUsec ∧
      (9 : ℕ) ≤ (get_friday_end ⟨9, 0⟩).day ∧
      (∀ d : ℕ, 9 ≤ d → d % 7 = 4 → (get_friday_end ⟨9, 0⟩).day ≤ d) ∧
      ((9 : ℕ) % 7 = 4 → (get_friday_end ⟨9, 0⟩).day = 9) ∧
      ((0 : ℕ) ≤ endOfDayUsec → (⟨9, 0⟩ : DateTime).toUsec ≤ (get_friday_end ⟨9, 0⟩).toUsec) ∧
      (⟨9, 0⟩ : DateTime).toUsec < (get_friday_end ⟨9, 0⟩).toUsec + 1000000) :=
  ⟨by decide, get_friday_end_spec ⟨9, 0⟩ (by decide)⟩

/-! ## Helper lemmas about `updateFirst`, `mkLines` and the store -/

theorem length_updateFirst (sel : α → Bool) (f : α → α) (l : List α) :
    (updateFirst sel f l).length = l.length := by
  induction l with
  | nil => rfl
  | cons x xs ih =>
    simp only [updateFirst]
    split <;> simp [ih]

theorem countP_updateFirst_le (sel p : α → Bool) (f : α → α)
    (hf : ∀ x, sel x = true → p (f x) = false) (l : List α) :
    (updateFirst sel f l).countP p ≤ l.countP p := by
  induction l with
  | nil => exact Nat.le_refl _
  | cons x xs ih =>
    simp only [updateFirst]
    split
    · rename_i hx
      rw [List.countP_cons, List.countP_cons, hf x hx]
      simp only [Bool.false_eq_true, if_false, Nat.add_zero]
      exact Nat.le_add_right _ _
    · rw [List.countP_cons, List.countP_cons]
      exact Nat.add_le_add_right ih _

theorem countP_updateFirst_lt (sel p : α → Bool) (f : α → α) (l : List α) (a : α)
    (hfind : l.find? sel = some a) (hpa : p a = true)
    (hf : ∀ x, sel x = true → p (f x) = false) :
    (updateFirst sel f l).countP p < l.countP p := by
  induction l with
  | nil => simp at hfind
  | cons x xs ih =>
    by_cases hx : sel x
    · rw [List.find?_cons_of_pos _ hx] at hfind
      injection hfind with hax
      simp only [updateFirst, hx, if_true]
      rw [List.countP_cons, List.countP_cons, hf x hx, hax, hpa]
      simp
    · have hx' : sel x = false := by simpa using hx
      rw [List.find?_cons_of_neg _ hx] at hfind
      simp only [updateFirst, hx', Bool.false_eq_true, if_false]
      rw [List.countP_cons, List.countP_cons]
      exact Nat.add_lt_add_right (ih hfind) _

theorem find?_updateFirst (sel : α → Bool) (f : α → α)
    (hkeep : ∀ x, sel x = true → sel (f x) = true) (l : List α) :
    (updateFirst sel f l).find? sel = (l.find? sel).map f := by
  induction l with
  | nil => rfl
  | cons x xs ih =>
    by_cases hx : sel x
    · simp only [updateFirst, hx, if_true]
      rw [List.find?_cons_of_pos _ (hkeep x hx), List.find?_cons_of_pos _ hx, Option.map_some']
    · have hx' : sel x = false := by simpa using hx
      simp only [updateFirst, hx', Bool.false_eq_true, if_false]
      rw [List.find?_cons_of_neg _ hx, List.find?_cons_of_neg _ hx, ih]

theorem sumDebit_mkLines (j : ℕ) (cl : List (ℕ × ℚ × ℚ)) :
    ∀ s, sumDebit (mkLines j s cl) = totalDebit cl := by
  induction cl with
  | nil => intro s; rfl
  | cons t rest ih =>
    intro s
    obtain ⟨aid, d, c⟩ := t
    simp only [mkLines, sumDebit, totalDebit, List.map_cons, List.sum_cons] at *
    rw [ih (s + 1)]

theorem sumCredit_mkLines (j : ℕ) (cl : List (ℕ × ℚ × ℚ)) :
    ∀ s, sumCredit (mkLines j s cl) = totalCredit cl := by
  induction cl with
  | nil => intro s; rfl
  | cons t rest ih =>
    intro s
    obtain ⟨aid, d, c⟩ := t
    simp only [mkLines, sumCredit, totalCredit, List.map_cons, List.sum_cons] at *
    rw [ih (s + 1)]

theorem mkLines_ref (j : ℕ) (cl : List (ℕ × ℚ × ℚ)) :
    ∀ s, ∀ ln ∈ mkLines j s cl, ln.journal_entry_id = j := by
  induction cl with
  | nil => intro s ln h; simp [mkLines] at h
  | cons t rest ih =>
    intro s ln h
    obtain ⟨aid, d, c⟩ := t
    simp only [mkLines, List.mem_cons] at h
    rcases h with h | h
    · subst h; rfl
    · exact ih (s + 1) ln h

/-- Filtering a list in which nothing satisfies the predicate. -/
theorem filter_eq_nil_of_all_false (p : α → Bool) (l : List α)
    (h : ∀ x ∈ l, p x = false) : l.filter p = [] := by
  rw [List.filter_eq_nil_iff]
  intro a ha
  simp [h a ha]

/-! ## Shape lemmas: the account helpers touch only the `accounts` table,
and the journal creators additionally only the ledger tables -/

theorem ensure_driver_root_account_shape (db : DB) :
    ∃ accs n, (ensure_driver_root_account db).1
      = { db with accounts := accs, nextAccountId := n } := by
  unfold ensure_driver_root_account
  split
  · exact ⟨db.accounts, db.nextAccountId, rfl⟩
  · exact ⟨_, _, rfl⟩

theorem ensure_driver_sub_account_shape (db : DB) (drv : Driver) :
    ∃ accs n, (ensure_driver_sub_account db drv).1
      = { db with accounts := accs, nextAccountId := n } := by
  unfold ensure_driver_sub_account
  split
  · exact ⟨db.accounts, db.nextAccountId, rfl⟩
  · dsimp only
    obtain ⟨accs, n, h⟩ := ensure_driver_root_account_shape db
    rw [h]
    exact ⟨_, _, rfl⟩

theorem resolve_driver_account_shape (db : DB) (driver_id : Option ℕ) :
    ∃ accs n, (resolve_driver_account db driver_id).1
      = { db with accounts := accs, nextAccountId := n } := by
  unfold resolve_driver_account
  cases driver_id with
  | none =>
    dsimp only
    exact ensure_driver_root_account_shape db
  | some did =>
    cases hfind : db.drivers.find? (fun d => d.id == did) with
    | none =>
      dsimp only
      rw [hfind]
      dsimp only
      exact ensure_driver_root_account_shape db
    | some drv =>
      dsimp only
      rw [hfind]
      dsimp only
      obtain ⟨accs, n, h⟩ := ensure_driver_sub_account_shape db drv
      rw [h]
      exact ⟨_, _, rfl⟩

theorem create_journal_closed_shape (db : DB) (auth : Authorization) (amt : ℚ)
    (now : DateTime) :
    ∃ accs nacc es ls ne nl,
      (create_journal_for_closed_authorization db auth amt now).1
        = { db with accounts := accs, nextAccountId := nacc, entries := es, lines := ls,
                    nextEntryId := ne, nextLineId := nl } := by
  unfold create_journal_for_closed_authorization
  split
  · exact ⟨_, _, _, _, _, _, rfl⟩
  · split
    · exact ⟨_, _, _, _, _, _, rfl⟩
    · dsimp only
      obtain ⟨accs, n, h⟩ := resolve_driver_account_shape db auth.driver_id
      rw [h]
      exact ⟨_, _, _, _, _, _, rfl⟩

theorem create_journal_receipt_shape (db : DB) (rc : CashReceipt) :
    ∃ accs nacc es ls ne nl,
      (create_journal_for_cash_receipt db rc).1
        = { db with accounts := accs, nextAccountId := nacc, entries := es, lines := ls,
                    nextEntryId := ne, nextLineId := nl } := by
  unfold create_journal_for_cash_receipt
  split
  · exact ⟨_, _, _, _, _, _, rfl⟩
  · split
    · exact ⟨_, _, _, _, _, _, rfl⟩
    · dsimp only
      obtain ⟨accs, n, h⟩ := resolve_driver_account_shape db rc.driver_id
      rw [h]
      exact ⟨_, _, _, _, _, _, rfl⟩

/-- Ledger effect of the closure-journal creator: either a no-op on the
ledger tables, or exactly one new entry with exactly two balanced lines
referencing it. -/
theorem create_journal_closed_ledger (db : DB) (auth : Authorization) (amt : ℚ)
    (now : DateTime) :
    (((create_journal_for_closed_authorization db auth amt now).1.entries = db.entries ∧
      (create_journal_for_closed_authorization db auth amt now).1.lines = db.lines ∧
      (create_journal_for_closed_authorization db auth amt now).1.nextEntryId = db.nextEntryId) ∧
      (create_journal_for_closed_authorization db auth amt now).2 = none) ∨
    (∃ je l1 l2,
      (create_journal_for_closed_authorization db auth amt now).1.entries = db.entries ++ [je] ∧
      (create_journal_for_closed_authorization db auth amt now).1.lines = db.lines ++ [l1, l2] ∧
      (create_journal_for_closed_authorization db auth amt now).1.nextEntryId
        = db.nextEntryId + 1 ∧
      je.id = db.nextEntryId ∧ je.ref_authorization_id = some auth.id ∧
      je.ref_receipt_id = none ∧
      l1.journal_entry_id = db.nextEntryId ∧ l2.journal_entry_id = db.nextEntryId ∧
      l1.debit = amt ∧ l1.credit = 0 ∧ l2.debit = 0 ∧ l2.credit = amt) := by
  unfold create_journal_for_closed_authorization
  split
  · exact Or.inl ⟨⟨rfl, rfl, rfl⟩, rfl⟩
  · split
    · exact Or.inl ⟨⟨rfl, rfl, rfl⟩, rfl⟩
    · dsimp only
      obtain ⟨accs, n, h⟩ := resolve_driver_account_shape db auth.driver_id
      rw [h]
      exact Or.inr ⟨_, _, _, rfl, rfl, rfl, rfl, rfl, rfl, rfl, rfl, rfl, rfl, rfl, rfl⟩

/-- Ledger effect of the receipt-journal creator: either a no-op, or
exactly one new entry referencing the receipt with two balanced lines. -/
theorem create_journal_receipt_ledger (db : DB) (rc : CashReceipt) :
    (((create_journal_for_cash_receipt db rc).1.entries = db.entries ∧
      (create_journal_for_cash_receipt db rc).1.lines = db.lines ∧
      (create_journal_for_cash_receipt db rc).1.nextEntryId = db.nextEntryId) ∧
      (create_journal_for_cash_receipt db rc).2 = none) ∨
    (∃ je l1 l2,
      (create_journal_for_cash_receipt db rc).1.entries = db.entries ++ [je] ∧
      (create_journal_for_cash_receipt db rc).1.lines = db.lines ++ [l1, l2] ∧
      (create_journal_for_cash_receipt db rc).1.nextEntryId = db.nextEntryId + 1 ∧
      je.id = db.nextEntryId ∧ je.ref_receipt_id = some rc.id ∧
      l1.journal_entry_id = db.nextEntryId ∧ l2.journal_entry_id = db.nextEntryId ∧
      l1.debit = rc.amount ∧ l1.credit = 0 ∧ l2.debit = 0 ∧ l2.credit = rc.amount) := by
  unfold create_journal_for_cash_receipt
  split
  · exact Or.inl ⟨⟨rfl, rfl, rfl⟩, rfl⟩
  · split
    · exact Or.inl ⟨⟨rfl, rfl, rfl⟩, rfl⟩
    · dsimp only
      obtain ⟨accs, n, h⟩ := resolve_driver_account_shape db rc.driver_id
      rw [h]
      exact Or.inr ⟨_, _, _, rfl, rfl, rfl, rfl, rfl, rfl, rfl, rfl, rfl, rfl, rfl⟩

/-! ## The happy path of `end_authorization`, once and for all -/

/-- Master description of a successful `end_authorization` call: the store
after the closure-and-journal stage (`db2`) updates exactly the found row,
leaves cars/receipts/drivers alone, and extends the ledger either not at
all or by one balanced two-line entry; the final store and response are
then determined by `renew`. -/
theorem end_authorization_spec (db : DB) (auth_id : ℕ) (inp : EndInput) (now : DateTime)
    (auth : Authorization)
    (hfind : db.auths.find? (fun a => a.id == auth_id) = some auth)
    (hopen : auth.close_date = none) :
    ∃ (db2 : DB) (jid : Option ℕ),
      db2.auths = updateFirst (fun a => a.id == auth_id)
        (fun _ => closedOf auth inp.closed_amount inp.closing_note now) db.auths ∧
      db2.cars = db.cars ∧
      db2.receipts = db.receipts ∧
      db2.drivers = db.drivers ∧
      ((db2.entries = db.entries ∧ db2.lines = db.lines ∧ db2.nextEntryId = db.nextEntryId) ∨
       (∃ je l1 l2,
         db2.entries = db.entries ++ [je] ∧ db2.lines = db.lines ++ [l1, l2] ∧
         db2.nextEntryId = db.nextEntryId + 1 ∧ je.id = db.nextEntryId ∧
         l1.journal_entry_id = db.nextEntryId ∧ l2.journal_entry_id = db.nextEntryId ∧
         ∃ f, l1.debit = f ∧ l1.credit = 0 ∧ l2.debit = 0 ∧ l2.credit = f)) ∧
      end_authorization db auth_id inp now =
        (if inp.renew then
          ({ db2 with auths := db2.auths ++ [renewedOf auth db2.nextAuthId],
                      nextAuthId := db2.nextAuthId + 1,
                      cars := updateFirst (fun c => c.plate == auth.car_number)
                                (fun c => { c with status := "مؤجرة" }) db2.cars },
           .ok { closed_authorization := closedOf auth inp.closed_amount inp.closing_note now,
                 new_authorization := some (renewedOf auth db2.nextAuthId),
                 rental_days := (autoAmountOf auth (endDateEff auth)).map (fun p => p.1),
                 total_amount := finalAmountOf auth inp.closed_amount,
                 journal_entry_id := jid })
         else
          ({ db2 with cars := updateFirst (fun c => c.plate == auth.car_number)
                                (fun c => { c with status := "متاحة" }) db2.cars },
           .ok { closed_authorization := closedOf auth inp.closed_amount inp.closing_note now,
                 new_authorization := none,
                 rental_days := (autoAmountOf auth (endDateEff auth)).map (fun p => p.1),
                 total_amount := finalAmountOf auth inp.closed_amount,
                 journal_entry_id := jid })) := by
  unfold end_authorization
  rw [hfind]
  dsimp only
  rw [hopen]
  simp only [Option.isSome_none, Bool.false_eq_true, if_false]
  set auth' := closedOf auth inp.closed_amount inp.closing_note now with hauth'
  set db1 : DB :=
    { db with auths := updateFirst (fun a => a.id == auth_id) (fun _ => auth') db.auths }
    with hdb1
  cases hwj : inp.with_journal with
  | false =>
    refine ⟨db1, none, rfl, rfl, rfl, rfl, Or.inl ⟨rfl, rfl, rfl⟩, ?_⟩
    simp only [Bool.false_eq_true, if_false]
  | true =>
    simp only [if_true]
    cases hfa : finalAmountOf auth inp.closed_amount with
    | none =>
      refine ⟨db1, none, rfl, rfl, rfl, rfl, Or.inl ⟨rfl, rfl, rfl⟩, rfl⟩
    | some f =>
      by_cases h0 : 0 < f
      · simp only [h0, if_true]
        rcases create_journal_closed_ledger db1 auth' f now with
          ⟨⟨he, hl, hn⟩, hjid⟩ | ⟨je, l1, l2, he, hl, hn, hjeid, _, _, hl1, hl2, hd1, hc1, hd2, hc2⟩
        · obtain ⟨accs, nacc, es, ls, ne, nl, hshape⟩ :=
            create_journal_closed_shape db1 auth' f now
          refine ⟨(create_journal_for_closed_authorization db1 auth' f now).1,
                  (create_journal_for_closed_authorization db1 auth' f now).2,
                  ?_, ?_, ?_, ?_, Or.inl ⟨he, hl, hn⟩, rfl⟩ <;> rw [hshape]
        · obtain ⟨accs, nacc, es, ls, ne, nl, hshape⟩ :=
            create_journal_closed_shape db1 auth' f now
          refine ⟨(create_journal_for_closed_authorization db1 auth' f now).1,
                  (create_journal_for_closed_authorization db1 auth' f now).2,
                  ?_, ?_, ?_, ?_,
                  Or.inr ⟨je, l1, l2, he, hl, hn, hjeid, hl1, hl2, f, hd1, hc1, hd2, hc2⟩,
                  rfl⟩ <;> rw [hshape]
      · simp only [h0, if_false]
        refine ⟨db1, none, rfl, rfl, rfl, rfl, Or.inl ⟨rfl, rfl, rfl⟩, rfl⟩

/-- Response of a successful `end_authorization` call: the operation
returns `ok` and its response carries the closed row, the rental days and
the final amount. -/
theorem end_authorization_ok (db : DB) (auth_id : ℕ) (inp : EndInput) (now : DateTime)
    (auth : Authorization)
    (hfind : db.auths.find? (fun a => a.id == auth_id) = some auth)
    (hopen : auth.close_date = none) :
    ∃ db' na jid,
      end_authorization db auth_id inp now =
        (db', .ok { closed_authorization := closedOf auth inp.closed_amount inp.closing_note now,
                    new_authorization := na,
                    rental_days := (autoAmountOf auth (endDateEff auth)).map (fun p => p.1),
                    total_amount := finalAmountOf auth inp.closed_amount,
                    journal_entry_id := jid }) := by
  obtain ⟨db2, jid, _, _, _, _, _, heq⟩ :=
    end_authorization_spec db auth_id inp now auth hfind hopen
  cases hr : inp.renew
  · rw [hr] at heq
    simp only [Bool.false_eq_true, if_false] at heq
    exact ⟨_, _, _, heq⟩
  · rw [hr] at heq
    simp only [if_true] at heq
    exact ⟨_, _, _, heq⟩

/-- `BalancedInv` only looks at the `entries` and `lines` tables. -/
theorem balancedInv_congr (db db' : DB)
    (he : db'.entries = db.entries) (hl : db'.lines = db.lines)
    (h : BalancedInv db) : BalancedInv db' := by
  intro e hme
  rw [he] at hme
  have hb := h e hme
  unfold EntryBalanced linesOf at hb ⊢
  rw [hl]
  exact hb

/-- Adding one fresh entry together with lines that all reference it keeps
every entry balanced, provided the new lines balance. -/
theorem balanced_extend (db db' : DB)
    (hfresh : LedgerFresh db) (hbal : BalancedInv db)
    (je : JournalEntry) (newLines : List JournalLine)
    (hentries : db'.entries = db.entries ++ [je])
    (hlines : db'.lines = db.lines ++ newLines)
    (hjid : je.id = db.nextEntryId)
    (href : ∀ l ∈ newLines, l.journal_entry_id = db.nextEntryId)
    (hbalnew : |sumDebit newLines - sumCredit newLines| ≤ 1/200) :
    BalancedInv db' := by
  intro e hme
  rw [hentries, List.mem_append] at hme
  unfold EntryBalanced linesOf
  rw [hlines, List.filter_append]
  rcases hme with hme | hme
  · have hold : newLines.filter (fun l => l.journal_entry_id == e.id) = [] := by
      apply filter_eq_nil_of_all_false
      intro l hm
      have h1 := href l hm
      have h2 := hfresh.1 e hme
      simp only [beq_eq_false_iff_ne, ne_eq, h1]
      omega
    rw [hold, List.append_nil]
    have hb := hbal e hme
    unfold EntryBalanced linesOf at hb
    exact hb
  · simp only [List.mem_singleton] at hme
    rw [hme]
    have hold : db.lines.filter (fun l => l.journal_entry_id == je.id) = [] := by
      apply filter_eq_nil_of_all_false
      intro l hm
      have h2 := hfresh.2 l hm
      simp only [beq_eq_false_iff_ne, ne_eq, hjid]
      omega
    have hnew : newLines.filter (fun l => l.journal_entry_id == je.id) = newLines := by
      rw [List.filter_eq_self]
      intro l hm
      simp [href l hm, hjid]
    rw [hold, hnew, List.nil_append]
    exact hbalnew

/-- Case analysis of `add_authorization`: it either rejects and leaves the
store unchanged, or there was no open authorization for the plate and
exactly one new open row for it is appended (and the car set to rented). -/
theorem add_authorization_cases (db : DB) (inp : IssueInput) (now : DateTime) :
    (add_authorization db inp now).1 = db ∨
    (∃ new_auth,
      db.auths.find? (isOpenFor inp.car_number) = none ∧
      new_auth.car_number = inp.car_number ∧
      new_auth.close_date = none ∧
      (add_authorization db inp now).1 =
        { db with auths := db.auths ++ [new_auth], nextAuthId := db.nextAuthId + 1,
                  cars := updateFirst (fun c => c.plate == inp.car_number)
                            (fun c => { c with status := "مؤجرة" }) db.cars }) := by
  unfold add_authorization
  dsimp only
  by_cases h1 : inp.driver_name = ""
  · rw [if_pos h1]; exact Or.inl rfl
  rw [if_neg h1]
  by_cases h2 : inp.car_number = ""
  · rw [if_pos h2]; exact Or.inl rfl
  rw [if_neg h2]
  cases hfc : db.cars.find? (fun c => c.plate == inp.car_number) with
  | none => exact Or.inl rfl
  | some car =>
    dsimp only
    by_cases h3 : car.status ≠ "متاحة"
    · rw [if_pos h3]; exact Or.inl rfl
    rw [if_neg h3]
    cases hoa : db.auths.find? (isOpenFor inp.car_number) with
    | some a => exact Or.inl rfl
    | none =>
      cases hsd : inp.start_date with
      | invalid => exact Or.inl rfl
      | absent =>
        cases hdr : inp.daily_rent with
        | invalid => exact Or.inl rfl
        | absent => exact Or.inr ⟨_, rfl, rfl, rfl, rfl⟩
        | val q => exact Or.inr ⟨_, rfl, rfl, rfl, rfl⟩
      | val sdt =>
        cases hdr : inp.daily_rent with
        | invalid => exact Or.inl rfl
        | absent => exact Or.inr ⟨_, rfl, rfl, rfl, rfl⟩
        | val q => exact Or.inr ⟨_, rfl, rfl, rfl, rfl⟩

/-- `add_car` with a non-empty plate never fails: one row is appended, with
no duplicate-plate check of any kind. -/
theorem add_car_ok (db : DB) (inp : CarInput) (h : inp.plate ≠ "") :
    ∃ c, add_car db inp
          = ({ db with cars := db.cars ++ [c], nextCarId := db.nextCarId + 1 }, .ok c) ∧
        c.plate = inp.plate := by
  unfold add_car
  dsimp only
  rw [if_neg h]
  exact ⟨_, rfl, rfl⟩

/-! ## The claims -/

/-- C9 (counterexample): creating a car whose plate equals the plate of an
already-registered car is NOT rejected: on a store already holding plate
"C1", `add_car` succeeds and a second row with plate "C1" is persisted. -/
theorem c9_duplicate_plate_accepted :
    (∃ c, (add_car dbWithCarC1 dupCarInp).2 = .ok c ∧ c.plate = "C1") ∧
    (add_car dbWithCarC1 dupCarInp).1.cars.length = 2 ∧
    (add_car dbWithCarC1 dupCarInp).1.cars.countP (fun c => c.plate == "C1") = 2 := by
  obtain ⟨c, heq, hplate⟩ := add_car_ok dbWithCarC1 dupCarInp (by decide)
  have hp : c.plate = "C1" := by rw [hplate]; decide
  rw [heq]
  refine ⟨⟨c, rfl, hp⟩, ?_, ?_⟩
  · simp [dbWithCarC1, emptyDB]
  · simp [dbWithCarC1, emptyDB, carC1, List.countP_cons, List.countP_nil, hp]

/-- C9 (amended): `add_car` rejects only an empty plate; any request with a
non-empty plate — including one duplicating an existing car's plate — is
accepted and persists exactly one new car row. -/
theorem c9_add_car_amended (db : DB) :
    (∀ inp : CarInput, inp.plate = "" →
      add_car db inp = (db, .error .plateRequired)) ∧
    (∀ inp : CarInput, inp.plate ≠ "" →
      ∃ c, add_car db inp
            = ({ db with cars := db.cars ++ [c], nextCarId := db.nextCarId + 1 }, .ok c) ∧
          c.plate = inp.plate) := by
  constructor
  · intro inp h
    unfold add_car
    dsimp only
    rw [if_pos h]
  · intro inp h
    exact add_car_ok db inp h

/-- C9 witness: `c9_add_car_amended` applied to the store that already
contains plate "C1" and to the duplicate request. -/
theorem c9_add_car_amended_witness :
    dupCarInp.plate ≠ "" ∧
    ∃ c,
      add_car dbWithCarC1 dupCarInp
        = ({ dbWithCarC1 with cars := dbWithCarC1.cars ++ [c], nextCarId := dbWithCarC1.nextCarId + 1 }, .ok c) ∧
      c.plate = dupCarInp.plate :=
  ⟨by decide, (c9_add_car_amended dbWithCarC1).2 dupCarInp (by decide)⟩

/-- C7: a manual journal entry whose usable lines are imbalanced by more
than 0.005 is rejected with a validation error carrying both totals, and
the store is returned unchanged (no entry, no lines persisted). -/
theorem c7_manual_imbalance_rejected (db : DB) (inp : ManualIn) (now : DateTime)
    (cleaned : List (ℕ × ℚ × ℚ))
    (hne : inp.lines ≠ [])
    (hdate : inp.date ≠ DateIn.invalid)
    (hproc : processLines db inp.lines 1 = Except.ok cleaned)
    (hcl : cleaned ≠ [])
    (himb : 1/200 < |totalDebit cleaned - totalCredit cleaned|) :
    journal_entries_api db inp now
      = (db, .error (.imbalance (totalDebit cleaned) (totalCredit cleaned))) := by
  unfold journal_entries_api
  dsimp only
  rw [if_neg hne]
  cases hdt : inp.date with
  | invalid => exact absurd hdt hdate
  | absent =>
    dsimp only
    rw [hproc]
    dsimp only
    rw [if_neg hcl, if_pos himb]
  | val d =>
    dsimp only
    rw [hproc]
    dsimp only
    rw [if_neg hcl, if_pos himb]

/-- C7 witness: scenario E — debit cash 100 against credit revenue 90 is
rejected with the imbalance error reporting totals 100 and 90, leaving the
store unchanged. -/
theorem c7_manual_imbalance_rejected_witness :
    manualInpW.lines ≠ [] ∧
    manualInpW.date ≠ DateIn.invalid ∧
    processLines dbAccountsOnly manualInpW.lines 1 = Except.ok [(1, 100, 0), (2, 0, 90)] ∧
    ([(1, 100, 0), (2, 0, 90)] : List (ℕ × ℚ × ℚ)) ≠ [] ∧
    1/200 < |totalDebit [(1, 100, 0), (2, 0, 90)] - totalCredit [(1, 100, 0), (2, 0, 90)]| ∧
    journal_entries_api dbAccountsOnly manualInpW ⟨11, endOfDayUsec⟩
      = (dbAccountsOnly,
         .error (.imbalance (totalDebit [(1, 100, 0), (2, 0, 90)])
                            (totalCredit [(1, 100, 0), (2, 0, 90)]))) :=
  ⟨by decide, by decide, by rfl, by decide,
   by norm_num [totalDebit, totalCredit],
   c7_manual_imbalance_rejected dbAccountsOnly manualInpW ⟨11, endOfDayUsec⟩
     [(1, 100, 0), (2, 0, 90)] (by decide) (by decide) (by rfl) (by decide)
     (by norm_num [totalDebit, totalCredit])⟩

/-- C6 (code_bug evidence): at the failing input (daily rent 0.10 over 3
days) the exact decimal auto-amount is 0.30, but the decimal 0.10 is not
even dyadic, so `float(auth.daily_rent)` in `end_authorization` cannot
represent it and the source's `float(auth.daily_rent) * days` multiplication
is necessarily performed on a binary approximation rather than in exact
decimal arithmetic. -/
theorem c6_auto_amount_decimal_vs_float :
    autoAmountOf authC6 (endDateEff authC6) = some (3, 3/10) ∧
    authC6.daily_rent = some (1/10) ∧
    ¬ Dyadic (1/10) := by
  have hd : rentalDaysOf (baseStart authC6) (endDateEff authC6) = 3 := by decide
  have hauto : autoAmountOf authC6 (endDateEff authC6) = some (3, 3/10) := by
    have hdr : authC6.daily_rent = some (1/10) := rfl
    unfold autoAmountOf
    rw [hdr, hd]
    norm_num
  refine ⟨hauto, rfl, ?_⟩
  rintro ⟨m, k, h⟩
  have hk : (2 : ℚ)^k ≠ 0 := by positivity
  rw [div_eq_div_iff (by norm_num) hk] at h
  have h2 : (2 : ℚ)^k = (m : ℚ) * 10 := by simpa using h
  have h3 : (2 : ℤ)^k = m * 10 := by exact_mod_cast h2
  have h5 : (5 : ℤ) ∣ 2^k := ⟨m * 2, by linarith⟩
  have hp : Prime (5 : ℤ) := by norm_num
  have := hp.dvd_of_dvd_pow h5
  norm_num at this

/-- C10: when the `closed_amount` override does not parse or is ≤ 0, the
`end` operation still succeeds (no error), the override is silently
ignored, and the stored `closed_amount` is the auto-computed amount rounded
to 2 decimals (or null when no auto amount is derivable). -/
theorem c10_invalid_override_ignored (db : DB) (auth_id : ℕ) (inp : EndInput)
    (now : DateTime) (auth : Authorization)
    (hfind : db.auths.find? (fun a => a.id == auth_id) = some auth)
    (hopen : auth.close_date = none)
    (hov : inp.closed_amount = DecIn.invalid ∨
           ∃ q, inp.closed_amount = DecIn.val q ∧ q ≤ 0) :
    ∃ db' out, (end_authorization db auth_id inp now).2 = .ok out ∧
      end_authorization db auth_id inp now = (db', .ok out) ∧
      out.closed_authorization.closed_amount
        = (autoAmountOf auth (endDateEff auth)).map (fun p => pyRound2 p.2) ∧
      (auth.daily_rent = none → out.closed_authorization.closed_amount = none) := by
  have hover : overrideAmount inp.closed_amount = none := by
    rcases hov with hov | ⟨q, hov, hq⟩
    · rw [hov]; rfl
    · rw [hov]
      unfold overrideAmount safe_decimal
      simp [not_lt.mpr hq]
  obtain ⟨db', na, jid, heq⟩ := end_authorization_ok db auth_id inp now auth hfind hopen
  refine ⟨db', _, by rw [heq], heq, ?_, ?_⟩
  · simp [closedOf, closedAmountOf, hover]
  · intro hdr
    simp [closedOf, closedAmountOf, hover, autoAmountOf, hdr]

/-- C10 witness: ending `authA` (auto amount 500.00) with the override
"-5" succeeds and stores `closed_amount = 500.00`. -/
theorem c10_invalid_override_ignored_witness :
    dbScenario.auths.find? (fun a => a.id == 1) = some authA ∧
    authA.close_date = none ∧
    ∃ out,
      (end_authorization dbScenario 1
        { renew := false, with_journal := false, closing_note := none,
          closed_amount := .val (-5) } ⟨11, endOfDayUsec⟩).2 = .ok out ∧
      out.closed_authorization.closed_amount = some 500 := by
  have h := c10_invalid_override_ignored dbScenario 1
    { renew := false, with_journal := false, closing_note := none,
      closed_amount := .val (-5) } ⟨11, endOfDayUsec⟩ authA (by decide) (by decide)
    (Or.inr ⟨-5, rfl, by norm_num⟩)
  obtain ⟨db', out, hok, _, hca, _⟩ := h
  have hdays : rentalDaysOf (baseStart authA) (endDateEff authA) = 5 := by decide
  have hauto : autoAmountOf authA (endDateEff authA) = some (5, 500) := by
    have hdr : authA.daily_rent = some 100 := rfl
    unfold autoAmountOf
    rw [hdr, hdays]
    norm_num
  refine ⟨by decide, by decide, out, hok, ?_⟩
  rw [hca, hauto]
  show some (pyRound2 500) = some 500
  norm_num [pyRound2, round_half_even]

/-- C4: ending an open authorization computes
`rental_days = (end_date.date − effective_start.date) + 1` clamped to ≥ 0
(`effective_start = start_date or issue_date`), and the auto-computed
amount is `daily_rent × rental_days`; both are returned by the operation. -/
theorem c4_rental_days_amount (db : DB) (auth_id : ℕ) (inp : EndInput)
    (now : DateTime) (auth : Authorization) (d : ℚ)
    (hfind : db.auths.find? (fun a => a.id == auth_id) = some auth)
    (hopen : auth.close_date = none)
    (hrent : auth.daily_rent = some d) :
    (rentalDaysOf (baseStart auth) (endDateEff auth) : ℤ)
        = max 0 (((endDateEff auth).day : ℤ) - ((baseStart auth).day : ℤ) + 1) ∧
    autoAmountOf auth (endDateEff auth)
        = some (rentalDaysOf (baseStart auth) (endDateEff auth),
                d * (rentalDaysOf (baseStart auth) (endDateEff auth) : ℚ)) ∧
    (inp.closed_amount = DecIn.absent →
      finalAmountOf auth inp.closed_amount
        = some (d * (rentalDaysOf (baseStart auth) (endDateEff auth) : ℚ))) ∧
    ∃ db' na jid,
      end_authorization db auth_id inp now =
        (db', .ok { closed_authorization := closedOf auth inp.closed_amount inp.closing_note now,
                    new_authorization := na,
                    rental_days := some (rentalDaysOf (baseStart auth) (endDateEff auth)),
                    total_amount := finalAmountOf auth inp.closed_amount,
                    journal_entry_id := jid }) := by
  have hauto : autoAmountOf auth (endDateEff auth)
      = some (rentalDaysOf (baseStart auth) (endDateEff auth),
              d * (rentalDaysOf (baseStart auth) (endDateEff auth) : ℚ)) := by
    unfold autoAmountOf
    rw [hrent]
  refine ⟨?_, hauto, ?_, ?_⟩
  · unfold rentalDaysOf
    rw [Int.ofNat_toNat]
    exact max_comm _ _
  · intro habs
    unfold finalAmountOf overrideAmount safe_decimal
    rw [habs]
    dsimp only
    rw [hauto]
    rfl
  · obtain ⟨db', na, jid, heq⟩ := end_authorization_ok db auth_id inp now auth hfind hopen
    rw [hauto] at heq
    exact ⟨db', na, jid, heq⟩

/-- C4 witness: scenario B — authorization issued Monday 2025-01-06 at
daily rent 100.00 with planned end Friday 2025-01-10; ending it returns
`rental_days = 5` and `total_amount = 500.00`. -/
theorem c4_rental_days_amount_witness :
    dbScenario.auths.find? (fun a => a.id == 1) = some authA ∧
    authA.close_date = none ∧
    authA.daily_rent = some 100 ∧
    rentalDaysOf (baseStart authA) (endDateEff authA) = 5 ∧
    ∃ db' out,
      end_authorization dbScenario 1
        { renew := false, with_journal := true, closing_note := none,
          closed_amount := .absent } ⟨11, endOfDayUsec⟩ = (db', .ok out) ∧
      out.rental_days = some 5 ∧ out.total_amount = some 500 := by
  have h := c4_rental_days_amount dbScenario 1
    { renew := false, with_journal := true, closing_note := none, closed_amount := .absent }
    ⟨11, endOfDayUsec⟩ authA 100 (by decide) (by decide) (by decide)
  obtain ⟨_, _, hfin, db', na, jid, heq⟩ := h
  have hdays : rentalDaysOf (baseStart authA) (endDateEff authA) = 5 := by decide
  refine ⟨by decide, by decide, by decide, hdays, db', _, heq, ?_, ?_⟩
  · show some (rentalDaysOf (baseStart authA) (endDateEff authA)) = some 5
    rw [hdays]
  · show finalAmountOf authA DecIn.absent = some 500
    rw [hfin rfl, hdays]
    norm_num

theorem getLast?_append_singleton (l : List α) (a : α) :
    (l ++ [a]).getLast? = some a := by
  simp

/-- C5: ending an issued (open) authorization with `renew = false` returns
the car to "متاحة" (available) and appends no authorization row; with
`renew = true` exactly one new open authorization is appended whose
`start_date = issue_date` is the closed one's `end_date` plus one day at
09:00:00, whose `end_date` is the next Friday end-of-day from that start,
which copies driver/car/daily_rent/details from the closed one, the car
staying "مؤجرة" (rented). -/
theorem c5_end_roundtrip (db : DB) (auth_id : ℕ) (now : DateTime)
    (auth : Authorization) (car : Car) (ed : DateTime)
    (hfind : db.auths.find? (fun a => a.id == auth_id) = some auth)
    (hopen : auth.close_date = none)
    (hed : auth.end_date = some ed)
    (hcar : db.cars.find? (fun c => c.plate == auth.car_number) = some car) :
    (∀ inp : EndInput, inp.renew = false →
      ∃ db' out,
        end_authorization db auth_id inp now = (db', .ok out) ∧
        out.new_authorization = none ∧
        db'.auths.length = db.auths.length ∧
        ∃ car', db'.cars.find? (fun c => c.plate == auth.car_number) = some car' ∧
                car'.status = "متاحة") ∧
    (∀ inp : EndInput, inp.renew = true →
      ∃ db' out na,
        end_authorization db auth_id inp now = (db', .ok out) ∧
        out.new_authorization = some na ∧
        db'.auths.length = db.auths.length + 1 ∧
        db'.auths.getLast? = some na ∧
        na.close_date = none ∧ na.status = "مؤجرة" ∧
        na.issue_date = ⟨ed.day + 1, nineAmUsec⟩ ∧
        na.start_date = some na.issue_date ∧
        na.end_date = some (get_friday_end na.issue_date) ∧
        na.driver_name = auth.driver_name ∧ na.driver_id = auth.driver_id ∧
        na.driver_license_no = auth.driver_license_no ∧
        na.car_number = auth.car_number ∧ na.car_model = auth.car_model ∧
        na.car_type = auth.car_type ∧ na.daily_rent = auth.daily_rent ∧
        na.details = auth.details ∧
        ∃ car', db'.cars.find? (fun c => c.plate == auth.car_number) = some car' ∧
                car'.status = "مؤجرة") := by
  have hede : endDateEff auth = ed := by
    unfold endDateEff
    rw [hed]
  have hkeepR : ∀ c : Car, (c.plate == auth.car_number) = true →
      (({ c with status := "مؤجرة" } : Car).plate == auth.car_number) = true :=
    fun c hc => hc
  have hkeepA : ∀ c : Car, (c.plate == auth.car_number) = true →
      (({ c with status := "متاحة" } : Car).plate == auth.car_number) = true :=
    fun c hc => hc
  constructor
  · intro inp hr
    obtain ⟨db2, jid, hauths, hcars, _, _, _, heq⟩ :=
      end_authorization_spec db auth_id inp now auth hfind hopen
    rw [hr] at heq
    simp only [Bool.false_eq_true, if_false] at heq
    refine ⟨_, _, heq, rfl, ?_, ?_⟩
    · show db2.auths.length = db.auths.length
      rw [hauths, length_updateFirst]
    · show ∃ car', (updateFirst (fun c => c.plate == auth.car_number)
          (fun c => { c with status := "متاحة" }) db2.cars).find?
            (fun c => c.plate == auth.car_number) = some car' ∧ car'.status = "متاحة"
      rw [hcars, find?_updateFirst _ _ hkeepA, hcar]
      exact ⟨_, rfl, rfl⟩
  · intro inp hr
    obtain ⟨db2, jid, hauths, hcars, _, _, _, heq⟩ :=
      end_authorization_spec db auth_id inp now auth hfind hopen
    rw [hr] at heq
    simp only [if_true] at heq
    refine ⟨_, _, renewedOf auth db2.nextAuthId, heq, rfl, ?_, ?_, rfl, rfl,
            ?_, ?_, ?_, rfl, rfl, rfl, rfl, rfl, rfl, rfl, rfl, ?_⟩
    · show (db2.auths ++ [renewedOf auth db2.nextAuthId]).length = db.auths.length + 1
      rw [List.length_append, hauths, length_updateFirst]
      rfl
    · show (db2.auths ++ [renewedOf auth db2.nextAuthId]).getLast?
        = some (renewedOf auth db2.nextAuthId)
      exact getLast?_append_singleton _ _
    · show (renewedOf auth db2.nextAuthId).issue_date = ⟨ed.day + 1, nineAmUsec⟩
      unfold renewedOf nextIssueOf
      rw [hede]
    · show (renewedOf auth db2.nextAuthId).start_date
        = some (renewedOf auth db2.nextAuthId).issue_date
      rfl
    · show (renewedOf auth db2.nextAuthId).end_date
        = some (get_friday_end (renewedOf auth db2.nextAuthId).issue_date)
      rfl
    · show ∃ car', (updateFirst (fun c => c.plate == auth.car_number)
          (fun c => { c with status := "مؤجرة" }) db2.cars).find?
            (fun c => c.plate == auth.car_number) = some car' ∧ car'.status = "مؤجرة"
      rw [hcars, find?_updateFirst _ _ hkeepR, hcar]
      exact ⟨_, rfl, rfl⟩

/-- C5 witness: `c5_end_roundtrip` on scenario A's store: ending `authA`
(planned end Friday 2025-01-10) without renewal frees car C1; ending it
with renewal appends one open authorization starting Saturday 2025-01-11
09:00 with planned end Friday 2025-01-17 23:59:59, car C1 staying rented. -/
theorem c5_end_roundtrip_witness :
    dbScenario.auths.find? (fun a => a.id == 1) = some authA ∧
    authA.close_date = none ∧
    authA.end_date = some (⟨11, endOfDayUsec⟩ : DateTime) ∧
    dbScenario.cars.find? (fun c => c.plate == authA.car_number)
      = some { carC1 with status := "مؤجرة" } ∧
    (∃ db' out,
      end_authorization dbScenario 1
        { renew := false, with_journal := false, closing_note := none,
          closed_amount := .absent } ⟨11, endOfDayUsec⟩ = (db', .ok out) ∧
      out.new_authorization = none ∧
      db'.auths.length = 1 ∧
      ∃ car', db'.cars.find? (fun c => c.plate == authA.car_number) = some car' ∧
              car'.status = "متاحة") ∧
    (∃ db' out na,
      end_authorization dbScenario 1
        { renew := true, with_journal := false, closing_note := none,
          closed_amount := .absent } ⟨11, endOfDayUsec⟩ = (db', .ok out) ∧
      out.new_authorization = some na ∧
      db'.auths.length = 2 ∧
      na.close_date = none ∧
      na.start_date = some (⟨12, nineAmUsec⟩ : DateTime) ∧
      na.end_date = some (⟨18, endOfDayUsec⟩ : DateTime) ∧
      na.car_number = "C1" ∧ na.daily_rent = some 100 ∧
      ∃ car', db'.cars.find? (fun c => c.plate == authA.car_number) = some car' ∧
              car'.status = "مؤجرة") := by
  obtain ⟨hfalse, htrue⟩ := c5_end_roundtrip dbScenario 1 ⟨11, endOfDayUsec⟩ authA
    { carC1 with status := "مؤجرة" } ⟨11, endOfDayUsec⟩
    (by decide) (by decide) (by decide) (by decide)
  refine ⟨by decide, by decide, by decide, by decide, ?_, ?_⟩
  · obtain ⟨db', out, heq, hna, hlen, car', hfindc, hst⟩ :=
      hfalse { renew := false, with_journal := false, closing_note := none,
               closed_amount := .absent } rfl
    exact ⟨db', out, heq, hna, by rw [hlen]; rfl, car', hfindc, hst⟩
  · obtain ⟨db', out, na, heq, hna, hlen, hlast, hcl, hstat, hissue, hstart, hendd,
            hdn, hdi, hdl, hcarn, hcm, hct, hdr, hdet, car', hfindc, hst⟩ :=
      htrue { renew := true, with_journal := false, closing_note := none,
              closed_amount := .absent } rfl
    refine ⟨db', out, na, heq, hna, by rw [hlen]; rfl, hcl, ?_, ?_, ?_, ?_, car', hfindc, hst⟩
    · rw [hstart, hissue]
    · rw [hendd, hissue]
      have hfe : get_friday_end ⟨11 + 1, nineAmUsec⟩ = (⟨18, endOfDayUsec⟩ : DateTime) := by
        decide
      rw [hfe]
    · rw [hcarn]; rfl
    · rw [hdr]; rfl

/-- C1: the single-open-authorization-per-plate invariant is preserved by
the `issue` and `end` operations (the only writers of Authorization rows),
and attempting `issue` on a car whose plate already has an open
authorization (while the car row itself still reads available, so that the
dedicated check is the one that fires) fails with the open-authorization
conflict error, leaving the store — rows and car status — unchanged. -/
theorem c1_single_open_authorization (db : DB) (h : OpenAuthInv db) :
    (∀ (inp : IssueInput) (now : DateTime),
      OpenAuthInv (add_authorization db inp now).1) ∧
    (∀ (auth_id : ℕ) (inp : EndInput) (now : DateTime),
      OpenAuthInv (end_authorization db auth_id inp now).1) ∧
    (∀ (inp : IssueInput) (now : DateTime) (car : Car),
      HasOpenAuth db inp.car_number →
      inp.driver_name ≠ "" →
      inp.car_number ≠ "" →
      db.cars.find? (fun c => c.plate == inp.car_number) = some car →
      car.status = "متاحة" →
      add_authorization db inp now = (db, .error .openAuthExists)) := by
  refine ⟨?_, ?_, ?_⟩
  · intro inp now
    rcases add_authorization_cases db inp now with heq | ⟨na, hoa, hplate, hclose, heq⟩
    · rw [heq]; exact h
    · rw [heq]
      intro p
      show (db.auths ++ [na]).countP (isOpenFor p) ≤ 1
      rw [List.countP_append]
      by_cases hp : p = inp.car_number
      · subst hp
        have h0 : db.auths.countP (isOpenFor inp.car_number) = 0 := by
          rw [List.countP_eq_zero]
          intro a ha
          exact List.find?_eq_none.mp hoa a ha
        have h1 : ([na].countP (isOpenFor inp.car_number)) ≤ 1 := by
          rw [List.countP_cons, List.countP_nil]
          split <;> omega
        rw [h0, Nat.zero_add]
        exact h1
      · have h2 : isOpenFor p na = false := by
          unfold isOpenFor
          rw [hplate, beq_eq_false_iff_ne.mpr (Ne.symm hp)]
          rfl
        have h1 : ([na].countP (isOpenFor p)) = 0 := by
          rw [List.countP_eq_zero]
          intro a ha
          rw [List.mem_singleton] at ha
          rw [ha, h2]
          exact Bool.false_ne_true
        rw [h1, Nat.add_zero]
        exact h p
  · intro auth_id inp now
    cases hfind : db.auths.find? (fun a => a.id == auth_id) with
    | none =>
      have heq : end_authorization db auth_id inp now = (db, .error .notFound) := by
        unfold end_authorization
        rw [hfind]
      rw [heq]
      exact h
    | some auth =>
      cases hcd : auth.close_date with
      | some cdt =>
        have heq : end_authorization db auth_id inp now = (db, .error .alreadyClosed) := by
          unfold end_authorization
          rw [hfind]
          dsimp only
          rw [hcd]
          rfl
        rw [heq]
        exact h
      | none =>
        obtain ⟨db2, jid, hauths, _, _, _, _, heq⟩ :=
          end_authorization_spec db auth_id inp now auth hfind hcd
        rw [heq]
        have hclosed : ∀ (p : String) (x : Authorization), (x.id == auth_id) = true →
            isOpenFor p ((fun _ => closedOf auth inp.closed_amount inp.closing_note now) x)
              = false := by
          intro p x hx
          simp [isOpenFor, closedOf]
        cases hr : inp.renew
        · simp only [Bool.false_eq_true, if_false]
          intro p
          show db2.auths.countP (isOpenFor p) ≤ 1
          rw [hauths]
          exact Nat.le_trans (countP_updateFirst_le _ _ _ (hclosed p) _) (h p)
        · simp only [if_true]
          intro p
          show (db2.auths ++ [renewedOf auth db2.nextAuthId]).countP (isOpenFor p) ≤ 1
          rw [List.countP_append, hauths]
          by_cases hp : p = auth.car_number
          · subst hp
            have hpa : isOpenFor auth.car_number auth = true := by
              simp [isOpenFor, hcd]
            have hlt := countP_updateFirst_lt (fun a => a.id == auth_id)
              (isOpenFor auth.car_number)
              (fun _ => closedOf auth inp.closed_amount inp.closing_note now)
              db.auths auth hfind hpa (hclosed auth.car_number)
            have hle := h auth.car_number
            have h1 : ([renewedOf auth db2.nextAuthId].countP (isOpenFor auth.car_number)) ≤ 1 := by
              rw [List.countP_cons, List.countP_nil]
              split <;> omega
            have hle' : countOpen db auth.car_number ≤ 1 := hle
            unfold countOpen at hle'
            omega
          · have hna : isOpenFor p (renewedOf auth db2.nextAuthId) = false := by
              unfold isOpenFor renewedOf
              dsimp only
              rw [beq_eq_false_iff_ne.mpr (Ne.symm hp)]
              rfl
            have h1 : ([renewedOf auth db2.nextAuthId].countP (isOpenFor p)) = 0 := by
              rw [List.countP_eq_zero]
              intro a ha
              rw [List.mem_singleton] at ha
              rw [ha, hna]
              exact Bool.false_ne_true
            have hle := countP_updateFirst_le (fun a => a.id == auth_id) (isOpenFor p)
              (fun _ => closedOf auth inp.closed_amount inp.closing_note now) (hclosed p) db.auths
            have hp' : countOpen db p ≤ 1 := h p
            unfold countOpen at hp'
            omega
  · intro inp now car hopen hd hc hfc hst
    unfold add_authorization
    dsimp only
    rw [if_neg hd, if_neg hc, hfc]
    dsimp only
    rw [if_neg (not_not_intro hst)]
    obtain ⟨b, hb⟩ : ∃ b, db.auths.find? (isOpenFor inp.car_number) = some b := by
      have hs : (db.auths.find? (isOpenFor inp.car_number)).isSome :=
        List.find?_isSome.mpr hopen
      exact Option.isSome_iff_exists.mp hs
    rw [hb]

/-- C1 witness: `c1_single_open_authorization` on a store with one open
authorization for plate C1 (and the car row still reading available):
issuing C1 again fails with the open-authorization conflict error and
leaves the store untouched. -/
theorem c1_single_open_authorization_witness :
    OpenAuthInv dbOpenConflict ∧
    add_authorization dbOpenConflict issueInpW ⟨11, 0⟩
      = (dbOpenConflict, .error .openAuthExists) := by
  have hinv : OpenAuthInv dbOpenConflict := by
    intro p
    show ([authA].countP (isOpenFor p)) ≤ 1
    rw [List.countP_cons, List.countP_nil]
    split <;> omega
  have hopen : HasOpenAuth dbOpenConflict issueInpW.car_number := by
    unfold HasOpenAuth
    exact ⟨authA, by decide, by decide⟩
  exact ⟨hinv, (c1_single_open_authorization dbOpenConflict hinv).2.2 issueInpW ⟨11, 0⟩
    carC1 hopen (by decide) (by decide) (by decide) (by decide)⟩

/-- Balance is preserved across any call of the closure-journal creator. -/
theorem create_journal_closed_balanced (db0 : DB)
    (hfresh : LedgerFresh db0) (hbal : BalancedInv db0)
    (auth : Authorization) (amt : ℚ) (now : DateTime) :
    BalancedInv (create_journal_for_closed_authorization db0 auth amt now).1 := by
  rcases create_journal_closed_ledger db0 auth amt now with
    ⟨⟨he, hl, hn⟩, _⟩ | ⟨je, l1, l2, he, hl, hn, hjid, -, -, hl1, hl2, hd1, hc1, hd2, hc2⟩
  · exact balancedInv_congr db0 _ he hl hbal
  · refine balanced_extend db0 _ hfresh hbal je [l1, l2] he hl hjid ?_ ?_
    · intro l hm
      rw [List.mem_cons, List.mem_singleton] at hm
      rcases hm with hm | hm <;> rw [hm]
      · exact hl1
      · exact hl2
    · unfold sumDebit sumCredit
      simp_all

/-- Balance is preserved across any call of the receipt-journal creator. -/
theorem create_journal_receipt_balanced (db0 : DB)
    (hfresh : LedgerFresh db0) (hbal : BalancedInv db0) (rc : CashReceipt) :
    BalancedInv (create_journal_for_cash_receipt db0 rc).1 := by
  rcases create_journal_receipt_ledger db0 rc with
    ⟨⟨he, hl, hn⟩, _⟩ | ⟨je, l1, l2, he, hl, hn, hjid, _, hl1, hl2, hd1, hc1, hd2, hc2⟩
  · exact balancedInv_congr db0 _ he hl hbal
  · refine balanced_extend db0 _ hfresh hbal je [l1, l2] he hl hjid ?_ ?_
    · intro l hm
      rw [List.mem_cons, List.mem_singleton] at hm
      rcases hm with hm | hm <;> rw [hm]
      · exact hl1
      · exact hl2
    · unfold sumDebit sumCredit
      simp [hd1, hc1, hd2, hc2]

/-- C2: every JournalEntry persisted by any of the three posting operations
(authorization closure, cash receipt, manual entry) balances — starting
from a store in which every entry balances (and whose autoincrement
counters are honest), each operation leaves a store in which every entry
still balances within 0.005: system entries are two equal lines, manual
entries are guarded by the explicit 0.005 check. -/
theorem c2_journal_entries_balanced (db : DB)
    (hfresh : LedgerFresh db) (hbal : BalancedInv db) :
    (∀ (auth_id : ℕ) (inp : EndInput) (now : DateTime),
      BalancedInv (end_authorization db auth_id inp now).1) ∧
    (∀ (inp : ReceiptIn) (now : DateTime),
      BalancedInv (receipts_api db inp now).1) ∧
    (∀ (inp : ManualIn) (now : DateTime),
      BalancedInv (journal_entries_api db inp now).1) := by
  refine ⟨?_, ?_, ?_⟩
  · intro auth_id inp now
    cases hfind : db.auths.find? (fun a => a.id == auth_id) with
    | none =>
      have heq : end_authorization db auth_id inp now = (db, .error .notFound) := by
        unfold end_authorization
        rw [hfind]
      rw [heq]
      exact hbal
    | some auth =>
      cases hcd : auth.close_date with
      | some cdt =>
        have heq : end_authorization db auth_id inp now = (db, .error .alreadyClosed) := by
          unfold end_authorization
          rw [hfind]
          dsimp only
          rw [hcd]
          rfl
        rw [heq]
        exact hbal
      | none =>
        obtain ⟨db2, jid, _, _, _, _, hledger, heq⟩ :=
          end_authorization_spec db auth_id inp now auth hfind hcd
        have hb2 : BalancedInv db2 := by
          rcases hledger with ⟨he, hl, hn⟩ |
            ⟨je, l1, l2, he, hl, hn, hjid, hl1, hl2, f, hd1, hc1, hd2, hc2⟩
          · exact balancedInv_congr db db2 he hl hbal
          · refine balanced_extend db db2 hfresh hbal je [l1, l2] he hl hjid ?_ ?_
            · intro l hm
              rw [List.mem_cons, List.mem_singleton] at hm
              rcases hm with hm | hm <;> rw [hm]
              · exact hl1
              · exact hl2
            · unfold sumDebit sumCredit
              simp_all
        rw [heq]
        cases hr : inp.renew
        · simp only [Bool.false_eq_true, if_false]
          exact balancedInv_congr db2 _ rfl rfl hb2
        · simp only [if_true]
          exact balancedInv_congr db2 _ rfl rfl hb2
  · intro inp now
    unfold receipts_api
    cases ham : inp.amount with
    | absent => exact hbal
    | invalid => exact hbal
    | val q =>
      dsimp only
      by_cases hq : q ≤ 0
      · rw [if_pos hq]
        exact hbal
      · rw [if_neg hq]
        cases hdt : inp.date <;>
          first
            | exact hbal
            | (dsimp only
               apply create_journal_receipt_balanced
               · exact hfresh
               · exact hbal)
  · intro inp now
    unfold journal_entries_api
    dsimp only
    by_cases h0 : inp.lines = []
    · rw [if_pos h0]
      exact hbal
    rw [if_neg h0]
    cases hdt : inp.date <;> first | exact hbal | skip
    all_goals
      dsimp only
      cases hpl : processLines db inp.lines 1 with
      | error e => exact hbal
      | ok cleaned =>
        dsimp only
        by_cases hcl : cleaned = []
        · rw [if_pos hcl]
          exact hbal
        rw [if_neg hcl]
        by_cases himb : 1/200 < |totalDebit cleaned - totalCredit cleaned|
        · rw [if_pos himb]
          exact hbal
        rw [if_neg himb]
        refine balanced_extend db _ hfresh hbal _ _ rfl rfl rfl ?_ ?_
        · intro l hm
          exact mkLines_ref db.nextEntryId cleaned db.nextLineId l hm
        · rw [sumDebit_mkLines db.nextEntryId cleaned db.nextLineId,
              sumCredit_mkLines db.nextEntryId cleaned db.nextLineId]
          exact not_lt.mp himb

/-- C2 witness: `c2_journal_entries_balanced` applied to the bootstrapped
store, with a balanced manual entry and a cash receipt posted against it. -/
theorem c2_journal_entries_balanced_witness :
    LedgerFresh dbAccountsOnly ∧
    BalancedInv dbAccountsOnly ∧
    BalancedInv (journal_entries_api dbAccountsOnly manualInpBalanced ⟨11, 0⟩).1 ∧
    BalancedInv (receipts_api dbAccountsOnly receiptInpW ⟨11, 0⟩).1 := by
  have hfresh : LedgerFresh dbAccountsOnly := by
    constructor
    · intro e hme
      exact absurd hme (by simp [dbAccountsOnly, emptyDB])
    · intro l hml
      exact absurd hml (by simp [dbAccountsOnly, emptyDB])
  have hbal : BalancedInv dbAccountsOnly := by
    intro e hme
    exact absurd hme (by simp [dbAccountsOnly, emptyDB])
  obtain ⟨_, hrc, hman⟩ := c2_journal_entries_balanced dbAccountsOnly hfresh hbal
  exact ⟨hfresh, hbal, hman manualInpBalanced ⟨11, 0⟩, hrc receiptInpW ⟨11, 0⟩⟩

/-- When the cash account exists and the amount is positive, the
receipt-journal creator does post: one entry referencing the receipt, with
its two lines. -/
theorem create_journal_receipt_posts (db : DB) (rc : CashReceipt) (cash : Account)
    (hcash : db.accounts.find? (fun a => a.name == cashAccountName) = some cash)
    (hq : 0 < rc.amount) :
    ∃ je l1 l2,
      (create_journal_for_cash_receipt db rc).1.entries = db.entries ++ [je] ∧
      (create_journal_for_cash_receipt db rc).2 = some je.id ∧
      je.ref_receipt_id = some rc.id ∧
      (create_journal_for_cash_receipt db rc).1.lines = db.lines ++ [l1, l2] ∧
      l1.debit = rc.amount ∧ l2.credit = rc.amount := by
  unfold create_journal_for_cash_receipt
  rw [if_neg (not_le.mpr hq), hcash]
  dsimp only
  obtain ⟨accs, n, h⟩ := resolve_driver_account_shape db rc.driver_id
  rw [h]
  exact ⟨_, _, _, rfl, rfl, rfl, rfl, rfl, rfl⟩

/-- Inserting a fresh receipt row and immediately posting its journal (the
body of `receipts_api` after validation): the receipt is persisted and
exactly one entry referencing it exists afterwards. -/
theorem receipts_insert_spec (db : DB) (rc0 : CashReceipt) (cash : Account)
    (hcash : db.accounts.find? (fun a => a.name == cashAccountName) = some cash)
    (hfresh : ReceiptRefsFresh db)
    (hid : rc0.id = db.nextReceiptId)
    (hq : 0 < rc0.amount) :
    (create_journal_for_cash_receipt
        { db with receipts := db.receipts ++ [rc0], nextReceiptId := db.nextReceiptId + 1 }
        rc0).1.receipts = db.receipts ++ [rc0] ∧
    (create_journal_for_cash_receipt
        { db with receipts := db.receipts ++ [rc0], nextReceiptId := db.nextReceiptId + 1 }
        rc0).1.entries.countP (fun e => e.ref_receipt_id == some db.nextReceiptId) = 1 := by
  have hcash1 : ({ db with receipts := db.receipts ++ [rc0],
                           nextReceiptId := db.nextReceiptId + 1 } : DB).accounts.find?
        (fun a => a.name == cashAccountName) = some cash := hcash
  obtain ⟨je, l1, l2, he, hjid2, href, hl, _, _⟩ :=
    create_journal_receipt_posts _ rc0 cash hcash1 hq
  obtain ⟨accs, nacc, es, ls, ne, nl, hshape⟩ :=
    create_journal_receipt_shape
      { db with receipts := db.receipts ++ [rc0], nextReceiptId := db.nextReceiptId + 1 } rc0
  constructor
  · rw [hshape]
  · rw [he, List.countP_append]
    have hold : db.entries.countP (fun e => e.ref_receipt_id == some db.nextReceiptId) = 0 := by
      rw [List.countP_eq_zero]
      intro e hme
      cases hrr : e.ref_receipt_id with
      | none => simp
      | some r =>
        have hlt := hfresh e hme r hrr
        simp only [beq_iff_eq, Option.some.injEq]
        omega
    have hnew : ([je].countP (fun e => e.ref_receipt_id == some db.nextReceiptId)) = 1 := by
      rw [List.countP_cons, List.countP_nil, href, hid]
      simp
    have hent : ({ db with receipts := db.receipts ++ [rc0],
                           nextReceiptId := db.nextReceiptId + 1 } : DB).entries.countP
          (fun e => e.ref_receipt_id == some db.nextReceiptId) = 0 := hold
    rw [hent, hnew]

/-- C8 (counterexample): in a store whose cash account is absent (the
startup bootstrap is wrapped in a try/except that only prints on failure),
a valid receipt request succeeds, the receipt row is persisted, and NO
journal entry exists — a receipt without its journal entry is a reachable
persisted state. -/
theorem c8_receipt_without_journal :
    ((receipts_api emptyDB receiptInpW ⟨11, 0⟩).2).toOption
        = some { receipt := { id := 1, date := ⟨11, 0⟩, driver_id := none,
                              driver_name := some "Ali", amount := 50,
                              description := "سند تحصيل نقدي", ref_authorization_id := none },
                 journal_entry_id := none } ∧
    (receipts_api emptyDB receiptInpW ⟨11, 0⟩).1.receipts.length = 1 ∧
    (receipts_api emptyDB receiptInpW ⟨11, 0⟩).1.entries = [] := by
  refine ⟨?_, ?_, ?_⟩ <;> decide

/-- C8 (amended): provided the cash account exists (as the successful
bootstrap guarantees), every receipt request that passes validation
persists exactly one receipt row and exactly one journal entry referencing
it, in the same operation. -/
theorem c8_receipt_journal_amended (db : DB) (inp : ReceiptIn) (now : DateTime)
    (q : ℚ) (cash : Account)
    (hcash : db.accounts.find? (fun a => a.name == cashAccountName) = some cash)
    (hfresh : ReceiptRefsFresh db)
    (hamt : inp.amount = DecIn.val q) (hq : 0 < q)
    (hdate : inp.date ≠ DateIn.invalid) :
    ∃ db' out rc,
      receipts_api db inp now = (db', .ok out) ∧
      db'.receipts = db.receipts ++ [rc] ∧
      rc.id = db.nextReceiptId ∧ rc.amount = q ∧
      db'.entries.countP (fun e => e.ref_receipt_id == some db.nextReceiptId) = 1 := by
  unfold receipts_api
  rw [hamt]
  dsimp only
  rw [if_neg (not_le.mpr hq)]
  cases hdt : inp.date with
  | invalid => exact absurd hdt hdate
  | absent =>
    dsimp only
    exact ⟨_, _, _, rfl, (receipts_insert_spec db _ cash hcash hfresh rfl hq).1, rfl, rfl,
           (receipts_insert_spec db _ cash hcash hfresh rfl hq).2⟩
  | val d =>
    dsimp only
    exact ⟨_, _, _, rfl, (receipts_insert_spec db _ cash hcash hfresh rfl hq).1, rfl, rfl,
           (receipts_insert_spec db _ cash hcash hfresh rfl hq).2⟩

/-- C8 witness: `c8_receipt_journal_amended` on the bootstrapped store — a
receipt of 50 persists one receipt row and exactly one entry referencing
it. -/
theorem c8_receipt_journal_amended_witness :
    dbAccountsOnly.accounts.find? (fun a => a.name == cashAccountName) = some cashAcc ∧
    receiptInpW.amount = DecIn.val 50 ∧
    (0 : ℚ) < 50 ∧
    ∃ db' out rc,
      receipts_api dbAccountsOnly receiptInpW ⟨11, 0⟩ = (db', .ok out) ∧
      db'.receipts = dbAccountsOnly.receipts ++ [rc] ∧
      rc.id = dbAccountsOnly.nextReceiptId ∧ rc.amount = 50 ∧
      db'.entries.countP
        (fun e => e.ref_receipt_id == some dbAccountsOnly.nextReceiptId) = 1 := by
  have hfr : ReceiptRefsFresh dbAccountsOnly := by
    intro e hme
    exact absurd hme (by simp [dbAccountsOnly, emptyDB])
  exact ⟨by decide, rfl, by norm_num,
    c8_receipt_journal_amended dbAccountsOnly receiptInpW ⟨11, 0⟩ 50 cashAcc
      (by decide) hfr rfl (by norm_num) (by decide)⟩

end OperationalCar
